import Mathlib

/-!
Shallow embedding of the rofi-randr display-configuration tool.

Rust source files embedded here: `src/action/mod.rs`, `src/action/position.rs`,
`src/action/rate.rs`, `src/action/resolution.rs`, `src/action/rotate.rs`,
`src/action/mode.rs`, `src/backend/mod.rs`, `src/backend/sway.rs`,
`src/backend/libxrandr.rs`, `src/backend/xrandr_cli.rs`, `src/rofi.rs`,
`src/main.rs`, `src/err.rs`.

Conventions:
* Rust `u32`/`i32` integers are embedded as `Nat`/`Int`; the arithmetic in
  this program (pixel counts, screen coordinates) never approaches the wrap
  boundary, so wrap-around is not modelled.
* Rust `f64` refresh rates are embedded as `ℚ`.  Every rate the program
  manipulates is a decimal literal or `refresh / 1000.0`, which `ℚ`
  represents exactly, and `f64::total_cmp` agrees with the `ℚ` order on
  such values.
* A Rust panic (`unreachable!`, out-of-bounds slicing, arithmetic underflow)
  is embedded as `Option.none` at the outermost level of the function that
  can panic.
* `Result<T, E>` is `Except E T`; `VecDeque<String>` front-popping is a
  `List String`.
-/

deriving instance DecidableEq for Except

namespace RofiRandr

/-- `Ordering` result of `u32::cmp` / `i32::cmp` / `f64::total_cmp`,
for keys drawn from any linear order (`Nat`, `Int`, `ℚ`). -/
def cmpOf {β : Type} [LinearOrder β] (x y : β) : Ordering :=
  if x < y then .lt else if y < x then .gt else .eq

/-- `bool::cmp` (false < true), used by the connected-first sorts in
`src/rofi.rs`. -/
def boolCmp (x y : Bool) : Ordering :=
  cmpOf (cond x 1 0 : Nat) (cond y 1 0)

/-- Rust `Vec::sort_by(cmp)`: a stable sort putting the list in ascending
order with respect to `cmp`.  `List.mergeSort` is stable and sorts by the
boolean relation `cmp a b ≠ Greater`, which characterises `sort_by`'s
output uniquely. -/
def sortBy {α : Type} (cmp : α → α → Ordering) (l : List α) : List α :=
  l.mergeSort (fun a b => cmp a b != .gt)

/-- Loop of `Vec::dedup_by`: `prev` is the most recently retained element;
a new element `b` is dropped when `sameBucket b prev` (Rust passes the
candidate first and the retained element second). -/
def dedupByLoop {α : Type} (sameBucket : α → α → Bool) (prev : α) :
    List α → List α
  | [] => []
  | b :: bs =>
    if sameBucket b prev then dedupByLoop sameBucket prev bs
    else b :: dedupByLoop sameBucket b bs

/-- Rust `Vec::dedup_by(same_bucket)`: removes all but the first of each
run of consecutive elements that `same_bucket` identifies. -/
def dedupBy {α : Type} (sameBucket : α → α → Bool) : List α → List α
  | [] => []
  | a :: as_ => a :: dedupByLoop sameBucket a as_

/-- Rust `Vec::dedup()`, i.e. `dedup_by` with derived `PartialEq`. -/
def dedup {α : Type} [BEq α] : List α → List α :=
  dedupBy (fun a b => a == b)

/-! ## Data model (`src/backend/mod.rs`, `src/action/...`) -/

/-- `OutputEntry` from `src/backend/mod.rs`. -/
structure OutputEntry where
  name : String
  connected : Bool
  enabled : Bool
  deriving DecidableEq, Repr

/-- `Resolution` from `src/action/resolution.rs` (`width`/`height` are
`u32`). -/
structure Resolution where
  width : Nat
  height : Nat
  deriving DecidableEq, Repr

/-- `pub type Rate = f64;` from `src/action/rate.rs`, embedded as `ℚ`. -/
abbrev Rate := ℚ

/-- `Rotation` from `src/action/rotate.rs`. -/
inductive Rotation where
  | Normal | Left | Right | Inverted
  deriving DecidableEq, Repr

/-- `Relation` from `src/action/position.rs`. -/
inductive Relation where
  | SameAs | LeftOf | RightOf | Above | Below
  deriving DecidableEq, Repr

/-- `Position` from `src/action/position.rs`. -/
structure Position where
  relation : Relation
  output_s : String
  deriving DecidableEq, Repr

/-- `Mode` from `src/action/mode.rs` (the older mode-based generation,
still used by `src/backend/xrandr_cli.rs`). -/
structure Mode where
  width : Nat
  height : Nat
  rate : ℚ
  deriving DecidableEq, Repr

/-- `Operation` from `src/action/mod.rs` (the resolution/rate generation
used by the compiled binary). -/
inductive Operation where
  | Enable
  | Disable
  | SetPrimary
  | ChangeRes (r : Resolution)
  | Position (p : Position)
  | ChangeRate (r : Rate)
  | Rotate (r : Rotation)
  deriving DecidableEq, Repr

/-- `Operation` as used by `src/backend/xrandr_cli.rs`, whose catalog has a
single `ChangeMode` in place of `ChangeRes`/`ChangeRate` (that file still
belongs to the mode-based generation of the `action` module). -/
inductive CliOperation where
  | Enable
  | Disable
  | SetPrimary
  | ChangeMode (m : Mode)
  | Position (p : Position)
  | Rotate (r : Rotation)
  deriving DecidableEq, Repr

/-- `Action` from `src/action/mod.rs`. -/
structure Action where
  output : String
  op : Operation
  deriving DecidableEq, Repr

/-- `ResolutionEntry` from `src/backend/mod.rs`
(derives `PartialEq, Eq` on both fields). -/
structure ResolutionEntry where
  val : Resolution
  current : Bool
  deriving DecidableEq, Repr

/-- `RateEntry` from `src/backend/mod.rs`. -/
structure RateEntry where
  val : Rate
  current : Bool
  deriving DecidableEq, Repr

/-- `ModeEntry` as used by `src/backend/xrandr_cli.rs::get_modes`.
Modelled from the spec: the defining file (`backend/mod.rs` of the
mode-based generation) is not under `src/`; per the spec's capability
interface (`list_modes(output) -> [(Mode, is_current)]`) and the call
sites, it pairs a `Mode` with a `current` flag and derives `PartialEq`
field-wise like its sibling `ResolutionEntry`. -/
structure ModeEntry where
  val : Mode
  current : Bool
  deriving DecidableEq, Repr

/-- Default values of the Rust `Default` derives (used only to populate the
payloads of the operation catalog entries). -/
def Resolution.default : Resolution := ⟨0, 0⟩

def Position.default : Position := ⟨.SameAs, ""⟩

def Rate.default : Rate := 0

def Rotation.default : Rotation := .Normal

def Mode.default : Mode := ⟨0, 0, 0⟩

/-! ## Error types (`src/err.rs` and the backend error module)

The backend error enums follow `src/dpy_backend/err.rs`, the in-repo copy
of the backend error module (`src/backend/err.rs` itself is not present
under `src/`; its call sites in `src/backend/*.rs` use exactly the variants
below).  The driver-identity `BackendCall` payloads (wrapped library
errors) are collapsed to a single constructor per enum, since the embedded
code never constructs them. -/

namespace Err

inductive GetResolutions where
  | BackendCall
  | NoOutput (s : String)
  | GetCurrent
  deriving DecidableEq, Repr

inductive SetResolution where
  | BackendCall
  | NoOutput (s : String)
  | NoMode (r : Resolution)
  deriving DecidableEq, Repr

inductive GetRates where
  | BackendCall
  | NoOutput (s : String)
  | GetCurrent
  deriving DecidableEq, Repr

inductive SetRate where
  | BackendCall
  | NoOutput (s : String)
  | NoMode (s : String)
  | NoRate (r : Rate)
  deriving DecidableEq, Repr

inductive SetRotation where
  | BackendCall
  | NoOutput (s : String)
  deriving DecidableEq, Repr

inductive SetPosition where
  | BackendCall
  | NoOutput (s : String)
  deriving DecidableEq, Repr

inductive SetPrimary where
  | BackendCall
  | NoOutput (s : String)
  deriving DecidableEq, Repr

inductive Enable where
  | BackendCall
  | NoOutput (s : String)
  deriving DecidableEq, Repr

inductive Disable where
  | BackendCall
  | NoOutput (s : String)
  deriving DecidableEq, Repr

end Err

/-- The backend `Error` enum (the `DpyServerError` shape of
`src/dpy_backend/err.rs`, re-exported as `Error` by `src/backend/mod.rs`). -/
inductive BackendError where
  | GetBackend
  | GetHandle
  | GetOutputs
  | GetResolutions (e : Err.GetResolutions)
  | SetResolution (e : Err.SetResolution)
  | GetRates (e : Err.GetRates)
  | SetRate (e : Err.SetRate)
  | SetRotation (e : Err.SetRotation)
  | SetPosition (e : Err.SetPosition)
  | SetPrimary (e : Err.SetPrimary)
  | Enable (e : Err.Enable)
  | Disable (e : Err.Disable)
  deriving DecidableEq, Repr

/-- `ParseError` from `src/err.rs`. -/
inductive ParseError where
  | Resolution (s : String)
  | Position (s : String)
  | Relation (s : String)
  | Rotation (s : String)
  | Rate (s : String)
  | Operation (s : String)
  deriving DecidableEq, Repr

/-- `AppError` from `src/err.rs`. -/
inductive AppError where
  | BackendErr (source : BackendError)
  | Lib
  | Cmd
  | Parse (source : ParseError)
  | NoModes
  | NoOuput (s : String)
  | Disabled (s : String)
  | Cancel
  deriving DecidableEq, Repr

/-! ## `supported_operations` of the three drivers -/

/-- `supported_operations` from `src/backend/libxrandr.rs` (lines 30-50). -/
def libxrandrSupportedOperations (output : OutputEntry) : List Operation :=
  match output.connected, output.enabled with
  | false, _ => [.Disable]
  | _, false => [.Enable]
  | _, _ =>
    [.Disable, .SetPrimary, .ChangeRes Resolution.default,
     .Position Position.default, .ChangeRate Rate.default,
     .Rotate Rotation.default]

/-- `supported_operations` from `src/backend/xrandr_cli.rs` (lines 190-209),
stated over that file's mode-based operation catalog. -/
def cliSupportedOperations (output : OutputEntry) : List CliOperation :=
  match output.connected, output.enabled with
  | false, _ => [.Disable]
  | _, false => [.Enable]
  | _, _ =>
    [.Disable, .SetPrimary, .ChangeMode Mode.default,
     .Position Position.default, .Rotate Rotation.default]

/-- `supported_operations` from `src/backend/sway.rs` (lines 71-88).
The `(false, _)` arm executes `unreachable!(...)`, a panic, embedded as
`none`. -/
def swaySupportedOperations (output : OutputEntry) : Option (List Operation) :=
  match output.connected, output.enabled with
  | false, _ => none
  | _, false => some [.Enable]
  | _, _ =>
    some [.Disable, .ChangeRes Resolution.default,
          .Position Position.default, .ChangeRate Rate.default,
          .Rotate Rotation.default]

/-- `supported_relations` from `src/backend/libxrandr.rs`. -/
def libxrandrSupportedRelations : List Relation :=
  [.LeftOf, .RightOf, .Below, .Above, .SameAs]

/-- `supported_relations` from `src/backend/xrandr_cli.rs`. -/
def cliSupportedRelations : List Relation :=
  [.LeftOf, .RightOf, .Below, .Above, .SameAs]

/-- `supported_relations` from `src/backend/sway.rs` (omits `SameAs`). -/
def swaySupportedRelations : List Relation :=
  [.LeftOf, .RightOf, .Below, .Above]

/-! ## Display and `FromStr` for the token vocabulary -/

/-- `impl fmt::Display for Relation` (`src/action/position.rs` lines 29-41).
Note the trailing space: the Rust code ends with `write!(f, "{pos_s} ")`. -/
def Relation.display : Relation → String
  | .LeftOf => "To the left of "
  | .RightOf => "To the right of "
  | .Above => "Above "
  | .Below => "Below "
  | .SameAs => "Mirroring "

/-- `impl FromStr for Relation` (`src/action/position.rs` lines 43-55). -/
def Relation.fromStr (s : String) : Except ParseError Relation :=
  if s = "To the left of" then .ok .LeftOf
  else if s = "To the right of" then .ok .RightOf
  else if s = "Above" then .ok .Above
  else if s = "Below" then .ok .Below
  else if s = "Mirroring" then .ok .SameAs
  else .error (.Relation s)

/-- `impl fmt::Display for Rotation` (`src/action/rotate.rs`), again with the
trailing space of `write!(f, "{pos_s} ")`. -/
def Rotation.display : Rotation → String
  | .Normal => "Normal "
  | .Left => "Left "
  | .Right => "Right "
  | .Inverted => "Inverted "

/-- `impl FromStr for Rotation` (`src/action/rotate.rs` lines 66-78). -/
def Rotation.fromStr (s : String) : Except ParseError Rotation :=
  if s = "Normal" then .ok .Normal
  else if s = "Left" then .ok .Left
  else if s = "Right" then .ok .Right
  else if s = "Inverted" then .ok .Inverted
  else .error (.Rotation s)

/-- `impl fmt::Display for Operation` (`src/action/mod.rs` lines 40-53),
with the trailing space of `write!(f, "{op_s} ")`. -/
def Operation.display : Operation → String
  | .Enable => "Enable "
  | .Disable => "Disable "
  | .SetPrimary => "Make primary "
  | .ChangeRes _ => "Change resolution "
  | .ChangeRate _ => "Change rate "
  | .Position _ => "Position "
  | .Rotate _ => "Rotate "

/-- The token-cleaning step of `get_args` in `src/main.rs` (line 30):
`a.split('<').next().unwrap().trim()` — everything before the first pango
tag, with surrounding whitespace trimmed. -/
def cleanToken (s : String) : String :=
  let beforeTag := s.data.takeWhile (fun c => c ≠ '<')
  ⟨(((beforeTag.dropWhile Char.isWhitespace).reverse.dropWhile
      Char.isWhitespace).reverse)⟩

/-! ## Rofi menu projection (`src/icon.rs`, `src/rofi.rs`) -/

/-- `Icon` from `src/icon.rs`. -/
inductive Icon where
  | Connected | Disabled | Disconnected
  | Primary | Disable
  | Rotate | Upright | RotLeft | RotRight | Flipped
  | Rate
  | Mode | Fitsize
  | Position | Left | Right | Above | Below | Duplicate
  | Apply | Cancel
  | None
  deriving DecidableEq, Repr

/-- `impl From<Relation> for Icon`. -/
def Icon.fromRelation : Relation → Icon
  | .SameAs => .Duplicate
  | .LeftOf => .Left
  | .RightOf => .Right
  | .Above => .Above
  | .Below => .Below

/-- `impl From<Rotation> for Icon`. -/
def Icon.fromRotation : Rotation → Icon
  | .Normal => .Upright
  | .Left => .RotLeft
  | .Right => .RotRight
  | .Inverted => .Flipped

/-- `impl From<Operation> for Icon`. -/
def Icon.fromOperation : Operation → Icon
  | .Enable => .Connected
  | .Disable => .Disable
  | .SetPrimary => .Primary
  | .ChangeRes _ => .Mode
  | .Position _ => .Position
  | .ChangeRate _ => .Rate
  | .Rotate _ => .Rotate

/-- `ListItem` from `src/rofi.rs`. -/
structure ListItem where
  text : String := ""
  comments : List String := []
  icon : Option Icon := none
  meta : Option String := none
  non_selectable : Bool := false
  info : Option String := none
  deriving DecidableEq, Repr

/-- `List` from `src/rofi.rs` (renamed: `List` is taken in Lean). -/
structure RofiList where
  prompt : Option String := none
  message : Option String := none
  allow_custom : Bool := false
  keep_selection : Bool := false
  no_markup : Bool := false
  list : List ListItem := []
  deriving DecidableEq, Repr

/-- `impl From<&OutputEntry> for ListItem` (`src/rofi.rs` lines 78-96). -/
def ListItem.fromOutputEntry (output : OutputEntry) : ListItem :=
  let (icon, comments) :=
    match output.connected, output.enabled with
    | false, _ => (Icon.Disconnected, ["disconnected"])
    | _, false => (Icon.Disabled, ["disabled"])
    | _, _ => (Icon.Connected, ([] : List String))
  { text := output.name, comments := comments, icon := some icon,
    non_selectable := !output.connected }

/-- `impl From<Operation> for ListItem`. -/
def ListItem.fromOperation (op : Operation) : ListItem :=
  { text := op.display, icon := some (Icon.fromOperation op) }

/-- `impl From<Relation> for ListItem`. -/
def ListItem.fromRelation (dir : Relation) : ListItem :=
  { text := dir.display, icon := some (Icon.fromRelation dir) }

/-- `Rotation::explain` from `src/action/rotate.rs`. -/
def Rotation.explain : Rotation → String
  | .Normal => "Upright"
  | .Left => "Counterclockwise"
  | .Right => "Clockwise"
  | .Inverted => "upside down"

/-- `impl From<Rotation> for ListItem`. -/
def ListItem.fromRotation (rot : Rotation) : ListItem :=
  { text := rot.display, comments := [rot.explain],
    icon := some (Icon.fromRotation rot) }

/-- `impl From<&ResolutionEntry> for ListItem`. -/
def ListItem.fromResolutionEntry (e : ResolutionEntry) : ListItem :=
  { text := toString e.val.width ++ "x" ++ toString e.val.height,
    icon := some .Fitsize,
    comments := if e.current then ["Current"] else [] }

/-- The `"{:.2} Hz"` rate text of `From<&RateEntry> for ListItem`: the rate
to two decimals (nearest hundredth; the embedded rates are exact
hundredths, so no rounding ambiguity arises). -/
def formatRate2 (q : ℚ) : String :=
  let c : Int := round (q * 100)
  let n := c.natAbs
  let frac := if n % 100 < 10 then "0" ++ toString (n % 100)
    else toString (n % 100)
  (if c < 0 then "-" else "") ++ toString (n / 100) ++ "." ++ frac ++ " Hz"

/-- `impl From<&RateEntry> for ListItem`. -/
def ListItem.fromRateEntry (e : RateEntry) : ListItem :=
  { text := formatRate2 e.val, icon := some .Rate,
    comments := if e.current then ["Current"] else [] }

/-! ## The backend handle and the incremental parser
(`src/action/mod.rs` and the menu constructors of `src/rofi.rs`)

`Box<dyn DisplayBackend>` is embedded as a record of the query results the
parser consumes.  `supported_operations` returns an `Option` because the
sway driver's implementation can panic (see
`swaySupportedOperations`). -/

structure Backend where
  getOutputs : Except BackendError (List OutputEntry)
  getResolutions : String → Except BackendError (List ResolutionEntry)
  getRates : String → Except BackendError (List RateEntry)
  supportedOperations : OutputEntry → Option (List Operation)
  supportedRelations : List Relation

/-- `ParseResult` from `src/action/mod.rs`. -/
inductive ParseResult (A : Type) where
  | Done (a : A)
  | Next (l : RofiList)
  deriving DecidableEq, Repr

/-- `ParseCtx` from `src/action/mod.rs`. -/
structure ParseCtx where
  output : String
  args : List String
  deriving DecidableEq, Repr

namespace ParseResult

/-! Shorthand constructors of `impl ParseResult<Action>`
(`src/action/mod.rs` lines 86-121). -/

def enable (output : String) : ParseResult Action :=
  .Done { output := output, op := .Enable }

def disable (output : String) : ParseResult Action :=
  .Done { output := output, op := .Disable }

def primary (output : String) : ParseResult Action :=
  .Done { output := output, op := .SetPrimary }

def resolution (output : String) (m : Resolution) : ParseResult Action :=
  .Done { output := output, op := .ChangeRes m }

def rate (output : String) (rate : Rate) : ParseResult Action :=
  .Done { output := output, op := .ChangeRate rate }

def rotate (output : String) (r : Rotation) : ParseResult Action :=
  .Done { output := output, op := .Rotate r }

def position (output : String) (rel : Relation) (o2 : String) :
    ParseResult Action :=
  .Done { output := output, op := .Position { relation := rel, output_s := o2 } }

/-! Menu constructors of `impl ParseResult<Action>` in `src/rofi.rs`. -/

/-- `output_list` (`src/rofi.rs` lines 165-178). -/
def output_list (backend : Backend) : Except AppError (ParseResult Action) :=
  match backend.getOutputs with
  | .error e => .error (.BackendErr e)
  | .ok outputs =>
    let sorted := sortBy (fun a b => boolCmp b.connected a.connected) outputs
    .ok (.Next { prompt := some "Select output",
                 list := sorted.map ListItem.fromOutputEntry })

/-- `relation_list` (`src/rofi.rs` lines 181-193). -/
def relation_list (backend : Backend) : ParseResult Action :=
  .Next { prompt := some "Select position",
          list := backend.supportedRelations.map ListItem.fromRelation }

/-- `rotation_list` (`src/rofi.rs` lines 196-202); `Rotation::iter()`
enumerates the variants in declaration order. -/
def rotation_list : ParseResult Action :=
  .Next { prompt := some "Select rotation",
          list := [Rotation.Normal, .Left, .Right, .Inverted].map
            ListItem.fromRotation }

/-- `confirm_disable_list` (`src/rofi.rs` lines 205-224). -/
def confirm_disable_list : ParseResult Action :=
  .Next { prompt := some "Disable last active output?",
          list := [
            { text := "Yes", icon := some .Apply },
            { text := "No", comments := ["Quit to cancel"],
              icon := some .Cancel, non_selectable := true }] }

/-- `rate_list` (`src/rofi.rs` lines 227-240). -/
def rate_list (backend : Backend) (output : String) :
    Except AppError (ParseResult Action) :=
  match backend.getRates output with
  | .error e => .error (.BackendErr e)
  | .ok rates =>
    let sorted := sortBy (fun a b : RateEntry => cmpOf b.val a.val) rates
    .ok (.Next { prompt := some "Select rate",
                 list := sorted.map ListItem.fromRateEntry })

/-- `resolution_list` (`src/rofi.rs` lines 243-264); the prompt string's
trailing space is in the source. -/
def resolution_list (backend : Backend) (output : String) :
    Except AppError (ParseResult Action) :=
  match backend.getResolutions output with
  | .error e => .error (.BackendErr e)
  | .ok resolutions =>
    let sorted := sortBy
      (fun a b : ResolutionEntry =>
        cmpOf (b.val.width * b.val.height) (a.val.width * a.val.height))
      resolutions
    .ok (.Next { prompt := some "Select resolution ",
                 message := some output,
                 list := sorted.map ListItem.fromResolutionEntry })

/-- `relatives_list` (`src/rofi.rs` lines 267-298): the non-chosen outputs,
connected first, disabled ones made non-selectable. -/
def relatives_list (backend : Backend) (output : String)
    (relation : Relation) : Except AppError (ParseResult Action) :=
  match backend.getOutputs with
  | .error e => .error (.BackendErr e)
  | .ok outputs =>
    let others := outputs.filter (fun o => o.name != output)
    let sorted := sortBy (fun a b => boolCmp b.connected a.connected) others
    let list := sorted.map (fun o =>
      let item := ListItem.fromOutputEntry o
      if !o.enabled then { item with non_selectable := true } else item)
    .ok (.Next { prompt := some "Select output",
                 message := some (output ++ " (" ++ relation.display ++ "...)"),
                 list := list })

/-- `operation_list` (`src/rofi.rs` lines 301-314); `none` when
`supported_operations` panics. -/
def operation_list (backend : Backend) (output : OutputEntry) :
    Option (ParseResult Action) :=
  (backend.supportedOperations output).map (fun ops =>
    .Next { prompt := some "Select operation",
            message := some output.name,
            list := ops.map ListItem.fromOperation })

end ParseResult

/-! ## The sub-parsers (`src/action/...`) -/

/-- `u32::from_str`: an optional leading `+`, then one or more ASCII
digits, rejecting values outside `u32` range. -/
def parseU32 (s : String) : Option Nat :=
  let digits := match s.data with
    | '+' :: cs => cs
    | cs => cs
  if digits.isEmpty then none
  else if digits.all Char.isDigit then
    let n := digits.foldl (fun acc c => acc * 10 + (c.toNat - '0'.toNat)) 0
    if n < 2 ^ 32 then some n else none
  else none

/-- `impl FromStr for Resolution` (`src/action/resolution.rs` lines 13-30):
split on `'x'`, require exactly two components, parse both as `u32`. -/
def Resolution.fromStr (s : String) : Except ParseError Resolution :=
  match s.splitOn "x" with
  | [w_s, h_s] =>
    match parseU32 w_s, parseU32 h_s with
    | some w, some h => .ok { width := w, height := h }
    | _, _ => .error (.Resolution s)
  | _ => .error (.Resolution s)

/-- The value of a digit run. -/
def digitsVal (l : List Char) : Nat :=
  l.foldl (fun acc c => acc * 10 + (c.toNat - '0'.toNat)) 0

/-- `f64::from_str` restricted to the plain decimal forms this program can
ever feed it (optional sign, digits, optional fractional part; the
exponent and `inf`/`nan` spellings are never produced by any menu and are
omitted). -/
def parseF64 (s : String) : Option ℚ :=
  let (sign, rest) : ℚ × List Char := match s.data with
    | '+' :: cs => (1, cs)
    | '-' :: cs => (-1, cs)
    | cs => (1, cs)
  let intPart := rest.takeWhile Char.isDigit
  let rest2 := rest.drop intPart.length
  match rest2 with
  | [] =>
    if intPart.isEmpty then none
    else some (sign * (digitsVal intPart : ℚ))
  | '.' :: frac =>
    if frac.all Char.isDigit ∧ ¬(intPart.isEmpty ∧ frac.isEmpty) then
      some (sign * ((digitsVal intPart : ℚ) +
        (digitsVal frac : ℚ) / (10 : ℚ) ^ frac.length))
    else none
  | _ => none

/-- UTF-8 byte length of a string's characters (`str::len`). -/
def utf8Len (l : List Char) : Nat :=
  l.foldr (fun c n => c.utf8Size + n) 0

/-- The prefix of a character list occupying exactly `n` UTF-8 bytes;
`none` when `n` is not a character boundary (where Rust slicing panics). -/
def utf8Take : Nat → List Char → Option (List Char)
  | 0, _ => some []
  | _ + 1, [] => none
  | n + 1, c :: cs =>
    if c.utf8Size ≤ n + 1 then (utf8Take (n + 1 - c.utf8Size) cs).map (c :: ·)
    else none

/-- `&rate_s[..rate_s.len() - 3]` from `src/action/rate.rs` line 17:
`none` models the panic (integer underflow when the token is shorter than
three bytes, or a non-boundary slice on multi-byte text). -/
def stripHzSuffix (s : String) : Option String :=
  if 3 ≤ utf8Len s.data then
    (utf8Take (utf8Len s.data - 3) s.data).map (fun l => ⟨l⟩)
  else none

/-- `parse` from `src/action/rate.rs` (lines 8-28).  The outer `Option` is
`none` exactly when the slice `&rate_s[..rate_s.len() - 3]` panics. -/
def parseRate (backend : Backend) (ctx : ParseCtx) :
    Option (Except AppError (ParseResult Action)) :=
  match ctx.args with
  | rate_s :: _ =>
    match stripHzSuffix rate_s with
    | none => none
    | some rate_stripped =>
      match parseF64 rate_stripped with
      | none => some (.error (.Parse (.Rate rate_s)))
      | some rate => some (.ok (ParseResult.rate ctx.output rate))
  | [] => some (ParseResult.rate_list backend ctx.output)

/-- `Rotation::parse` (`src/action/rotate.rs` lines 51-64). -/
def Rotation.parse (ctx : ParseCtx) : Except AppError (ParseResult Action) :=
  match ctx.args with
  | [] => .ok ParseResult.rotation_list
  | rot_s :: _ =>
    match Rotation.fromStr rot_s with
    | .error e => .error (.Parse e)
    | .ok rotation => .ok (ParseResult.rotate ctx.output rotation)

/-- `Resolution::parse` (`src/action/resolution.rs` lines 38-52). -/
def Resolution.parse (backend : Backend) (ctx : ParseCtx) :
    Except AppError (ParseResult Action) :=
  match ctx.args with
  | [] => ParseResult.resolution_list backend ctx.output
  | res_s :: _ =>
    match Resolution.fromStr res_s with
    | .error e => .error (.Parse e)
    | .ok mode => .ok (ParseResult.resolution ctx.output mode)

/-- `Position::parse` (`src/action/position.rs` lines 85-101). -/
def Position.parse (backend : Backend) (ctx : ParseCtx) :
    Except AppError (ParseResult Action) :=
  match ctx.args with
  | [] => .ok (ParseResult.relation_list backend)
  | rel_s :: rest =>
    match Relation.fromStr rel_s with
    | .error e => .error (.Parse e)
    | .ok relation =>
      match rest with
      | [] => ParseResult.relatives_list backend ctx.output relation
      | o2 :: _ => .ok (ParseResult.position ctx.output relation o2)

/-- `confirm_last_display_disable` from `src/action/mod.rs` (lines
126-144), verbatim: a queued confirmation token decides immediately
(`"Yes"` ⇒ disable, anything else ⇒ `Err(AppError::Cancel)`); otherwise,
when no **other** output is enabled the confirmation menu is emitted; and
otherwise the fall-through — commented `// Otherwise, immediately
disable.` — constructs `ParseResult::enable(ctx.output)`. -/
def confirm_last_display_disable (outputs : List OutputEntry)
    (ctx : ParseCtx) : Except AppError (ParseResult Action) :=
  match ctx.args with
  | confirmation :: _ =>
    if confirmation = "Yes" then .ok (ParseResult.disable ctx.output)
    else .error .Cancel
  | [] =>
    if !(outputs.any fun o => o.name != ctx.output && o.enabled) then
      .ok ParseResult.confirm_disable_list
    else
      .ok (ParseResult.enable ctx.output)

/-- `Action::parse` from `src/action/mod.rs` (lines 157-199).  The outer
`Option` is `none` exactly when the call panics (the rate sub-parser's
slicing, or sway's `supported_operations` reached through
`operation_list`). -/
def Action.parse (backend : Backend) (args : List String) :
    Option (Except AppError (ParseResult Action)) :=
  match backend.getOutputs with
  | .error e => some (.error (.BackendErr e))
  | .ok outputs =>
    match args with
    | [] => some (ParseResult.output_list backend)
    | name :: args1 =>
      match outputs.find? (fun o => o.name == name) with
      | none => some (.error (.NoOuput name))
      | some output =>
        match args1 with
        | [] =>
          match ParseResult.operation_list backend output with
          | none => none
          | some r => some (.ok r)
        | op_str :: args2 =>
          let ctx : ParseCtx := { output := output.name, args := args2 }
          match op_str with
          | "Enable" => some (.ok (ParseResult.enable ctx.output))
          | "Disable" => some (confirm_last_display_disable outputs ctx)
          | "Make primary" => some (.ok (ParseResult.primary ctx.output))
          | "Change resolution" => some (Resolution.parse backend ctx)
          | "Rotate" => some (Rotation.parse ctx)
          | "Change rate" => parseRate backend ctx
          | "Position" => some (Position.parse backend ctx)
          | _ => some (.error (.Parse (.Operation
              (op_str ++ " (" ++ String.intercalate ", " args2 ++ ")"))))

/-- A backend test double whose `get_outputs` answers with a fixed output
list; the query channels unreached by the claims under test return empty
catalogs. -/
def pureBackend (outputs : List OutputEntry) : Backend where
  getOutputs := .ok outputs
  getResolutions := fun _ => .ok []
  getRates := fun _ => .ok []
  supportedOperations := fun _ => some []
  supportedRelations := []

/-! ## Claim C3: the `supported_operations` table -/

/-- C3 (counterexample): the claim says every driver returns a value on
every `(connected, enabled)` combination, with `connected = false` yielding
exactly `[Disable]`.  The sway IPC driver instead panics
(`unreachable!("SwayIPC does not list disconnected outputs")`) on a
disconnected output, embedded as `none`. -/
theorem sway_supported_operations_panics_on_disconnected :
    swaySupportedOperations ⟨"HDMI-A-1", false, false⟩ ≠
      some [Operation.Disable] := by
  decide

/-- C3 (amended): `supported_operations` is a pure function of
`(connected, enabled)`.  For the libxrandr and xrandr CLI drivers it is
exactly the spec's table (disconnected ⇒ `[Disable]`; connected and
disabled ⇒ `[Enable]`; connected and enabled ⇒ every operation of the
driver's catalog except `Enable`).  The sway IPC driver agrees on both
connected rows — additionally omitting `SetPrimary` from the enabled row —
but on a disconnected output it panics (`unreachable!`) instead of
returning `[Disable]`, since it never lists disconnected outputs. -/
theorem supported_operations_table (o : OutputEntry) :
    (o.connected = false →
      libxrandrSupportedOperations o = [.Disable] ∧
      cliSupportedOperations o = [.Disable] ∧
      swaySupportedOperations o = none) ∧
    (o.connected = true → o.enabled = false →
      libxrandrSupportedOperations o = [.Enable] ∧
      cliSupportedOperations o = [.Enable] ∧
      swaySupportedOperations o = some [.Enable]) ∧
    (o.connected = true → o.enabled = true →
      libxrandrSupportedOperations o =
        [.Disable, .SetPrimary, .ChangeRes Resolution.default,
         .Position Position.default, .ChangeRate Rate.default,
         .Rotate Rotation.default] ∧
      cliSupportedOperations o =
        [.Disable, .SetPrimary, .ChangeMode Mode.default,
         .Position Position.default, .Rotate Rotation.default] ∧
      swaySupportedOperations o =
        some [.Disable, .ChangeRes Resolution.default,
              .Position Position.default, .ChangeRate Rate.default,
              .Rotate Rotation.default]) := by
  obtain ⟨n, c, e⟩ := o
  cases c <;> cases e <;>
    simp [libxrandrSupportedOperations, cliSupportedOperations,
      swaySupportedOperations]

/-- C3 witness: the amended table evaluated on a disconnected output. -/
theorem supported_operations_table_witness :
    libxrandrSupportedOperations ⟨"VGA-1", false, true⟩ =
        [Operation.Disable] ∧
      cliSupportedOperations ⟨"VGA-1", false, true⟩ =
        [CliOperation.Disable] ∧
      swaySupportedOperations ⟨"VGA-1", false, true⟩ = none :=
  (supported_operations_table ⟨"VGA-1", false, true⟩).1 rfl

/-! ## The sway IPC driver's geometry (`src/backend/sway.rs`) -/

/-- `swayipc::Rect` (the fields this program touches; all `i32`). -/
structure Rect where
  x : Int
  y : Int
  width : Int
  height : Int
  deriving DecidableEq, Repr

/-- `swayipc::Mode` (`width`/`height`/`refresh` are `i32`; `refresh` is in
frames per 1000 seconds). -/
structure SwayMode where
  width : Int
  height : Int
  refresh : Int
  deriving DecidableEq, Repr

/-- `swayipc::Output` (the fields this program touches). -/
structure SwayOutput where
  name : String
  rect : Rect
  current_mode : Option SwayMode
  modes : List SwayMode
  deriving DecidableEq, Repr

/-- The per-output translation applied by `normalize_all_outputs`
(`output.rect.x -= left; output.rect.y -= top`). -/
def offsetOutput (left top : Int) (o : SwayOutput) : SwayOutput :=
  { o with rect := { o.rect with x := o.rect.x - left, y := o.rect.y - top } }

/-- `normalize_all_outputs` from `src/backend/sway.rs` (lines 51-67):
`Iterator::reduce` takes the first pair as the accumulator and folds
`min` componentwise over the rest; `.expect(...)` panics on an empty
iterator, embedded as `none`. -/
def normalize_all_outputs (outputs : List SwayOutput) :
    Option (List SwayOutput) :=
  match outputs with
  | [] => none
  | o0 :: rest =>
    let lt := (rest.map (fun o => (o.rect.x, o.rect.y))).foldl
      (fun a b => (min a.1 b.1, min a.2 b.2)) (o0.rect.x, o0.rect.y)
    some (outputs.map (offsetOutput lt.1 lt.2))

/-- The `let (x, y) = match relation` block of `set_position`
(`src/backend/sway.rs` lines 336-342). -/
def setPositionNewXY (relation : Relation) (outputRect relRect : Rect) :
    Int × Int :=
  match relation with
  | .LeftOf => (relRect.x - outputRect.width, relRect.y)
  | .RightOf => (relRect.x + relRect.width, relRect.y)
  | .Above => (relRect.x, relRect.y - outputRect.height)
  | .Below => (relRect.x, relRect.y + relRect.height)
  | .SameAs => (relRect.x, relRect.y)

/-- The `new_outputs` iterator of `set_position` (lines 344-350): the
output list with the moved output's rectangle replaced by its newly
computed one. -/
def swayNewOutputs (outputs : List SwayOutput) (output rel_output : SwayOutput)
    (relation : Relation) : List SwayOutput :=
  let xy := setPositionNewXY relation output.rect rel_output.rect
  let new_output :=
    { output with rect := { output.rect with x := xy.1, y := xy.2 } }
  outputs.map (fun o => if o.name == new_output.name then new_output else o)

/-- `set_position` from `src/backend/sway.rs` (lines 315-370), returning
the list of `output <name> pos <x> <y>` sub-commands it batches (an empty
list when every rectangle is already in place).  Both `ok_or` calls use
`err::Enable::NoOutput`, as in the source.  The outer `Option` models the
(unreachable) `expect` panic of `normalize_all_outputs`. -/
def swaySetPosition (outputs : List SwayOutput) (output_name : String)
    (pos : Position) : Option (Except BackendError (List String)) :=
  match outputs.find? (fun o => o.name == output_name) with
  | none => some (.error (.Enable (.NoOutput output_name)))
  | some output =>
    match outputs.find? (fun o => o.name == pos.output_s) with
    | none => some (.error (.Enable (.NoOutput pos.output_s)))
    | some rel_output =>
      match normalize_all_outputs
          (swayNewOutputs outputs output rel_output pos.relation) with
      | none => none
      | some normalized =>
        let cmds := ((outputs.zip normalized).filter
          (fun p => p.1.rect != p.2.rect)).map
          (fun p => "output " ++ p.2.name ++ " pos " ++
            toString p.2.rect.x ++ " " ++ toString p.2.rect.y)
        some (.ok cmds)

/-- The spec's relation equation between the moved output's rectangle and
the reference output's rectangle (claim C5's table). -/
def relationEq (relation : Relation) (moved ref : Rect) : Prop :=
  match relation with
  | .LeftOf => moved.x = ref.x - moved.width ∧ moved.y = ref.y
  | .RightOf => moved.x = ref.x + ref.width ∧ moved.y = ref.y
  | .Above => moved.y = ref.y - moved.height ∧ moved.x = ref.x
  | .Below => moved.y = ref.y + ref.height ∧ moved.x = ref.x
  | .SameAs => moved.x = ref.x ∧ moved.y = ref.y

instance (relation : Relation) (moved ref : Rect) :
    Decidable (relationEq relation moved ref) := by
  cases relation <;> (dsimp [relationEq]; infer_instance)

/-! ## The libxrandr driver's data (`src/backend/libxrandr.rs`) -/

/-- `xrandr::Mode` (the fields this program touches): `xid` identifies the
mode, `width`/`height` are `u32`, `rate` is an `f64` refresh rate. -/
structure XMode where
  xid : Nat
  width : Nat
  height : Nat
  rate : ℚ
  deriving DecidableEq, Repr

/-- `xrandr::Output` (the fields this program touches): `current_mode` and
`modes` hold mode xids. -/
structure XOutput where
  name : String
  connected : Bool
  current_mode : Option Nat
  modes : List Nat
  deriving DecidableEq, Repr

/-- `xrandr::ScreenResources` (the `modes` table; `res.mode(xid)` looks a
mode up by its xid and fails if absent). -/
structure ScreenResources where
  modes : List XMode
  deriving DecidableEq, Repr

/-- `ScreenResources::mode` — lookup by xid. -/
def ScreenResources.mode (res : ScreenResources) (xid : Nat) : Option XMode :=
  res.modes.find? (fun m => m.xid == xid)

/-! ## `set_rate` of the two rate-capable drivers -/

/-- `set_rate` from `src/backend/sway.rs` (lines 244-284), up to the mode
selection: the result is the `target_mode` whose `{w}x{h}@{rate}Hz`
command is then issued (command formatting and the IPC round trip are
outside the embedding).  `RATE_EPSILON = 0.01`. -/
def swaySetRate (outputs : List SwayOutput) (output_name : String)
    (rate : Rate) : Except BackendError SwayMode :=
  match outputs.find? (fun o => o.name == output_name) with
  | none => .error (.SetRate (.NoOutput output_name))
  | some output =>
    match output.current_mode with
    | none => .error (.SetRate (.NoMode output_name))
    | some current_mode =>
      match output.modes.find? (fun m =>
          m.width == current_mode.width && m.height == current_mode.height &&
          decide (|(m.refresh : ℚ) / 1000 - rate| < 1 / 100)) with
      | none => .error (.SetRate (.NoRate rate))
      | some target_mode => .ok target_mode

/-- `set_rate` from `src/backend/libxrandr.rs` (lines 156-180), up to the
mode selection: the result is the `target_mode` passed to
`handle.set_mode`.  `RATE_EPSILON = 0.01`. -/
def libxrandrSetRate (outputs : List XOutput) (res : ScreenResources)
    (output_name : String) (rate : Rate) : Except BackendError XMode :=
  match outputs.find? (fun o => o.name == output_name) with
  | none => .error (.SetRate (.NoOutput output_name))
  | some output =>
    match output.current_mode with
    | none => .error (.SetRate (.NoMode output.name))
    | some current_mode_id =>
      match res.mode current_mode_id with
      | none => .error (.SetRate (.NoMode output.name))
      | some current_mode =>
        match (res.modes.filter (fun m => output.modes.contains m.xid)).find?
            (fun m => m.width == current_mode.width &&
              m.height == current_mode.height &&
              decide (|m.rate - rate| < 1 / 100)) with
        | none => .error (.SetRate (.NoRate rate))
        | some target_mode => .ok target_mode

/-! ## The mode/resolution list queries (claim C6) -/

/-- The `resolution_ord` comparator of `get_resolutions` in
`src/backend/sway.rs` (lines 151-158): pixel count, then width,
**ascending** (`a` compared to `b`). -/
def swayResolutionOrd (a b : ResolutionEntry) : Ordering :=
  (cmpOf (a.val.width * a.val.height) (b.val.width * b.val.height)).then
    (cmpOf a.val.width b.val.width)

/-- `get_resolutions` from `src/backend/sway.rs` (lines 117-165): map the
modes to resolution entries, sort by `resolution_ord`, then collapse
adjacent entries with equal width and height.  The `i32` dimensions are
cast `as u32` (the values are non-negative in practice, embedded via
`Int.toNat`). -/
def swayGetResolutions (outputs : List SwayOutput) (output_name : String) :
    Except BackendError (List ResolutionEntry) :=
  match outputs.find? (fun o => o.name == output_name) with
  | none => .error (.GetResolutions (.NoOutput output_name))
  | some output =>
    match output.current_mode with
    | none => .error (.GetResolutions .GetCurrent)
    | some current_mode =>
      let entries := output.modes.map (fun m =>
        ResolutionEntry.mk ⟨m.width.toNat, m.height.toNat⟩
          (m.width == current_mode.width && m.height == current_mode.height))
      .ok (dedupBy
        (fun a b => a.val.width == b.val.width &&
          a.val.height == b.val.height)
        (sortBy swayResolutionOrd entries))

/-- `get_rates` from `src/backend/sway.rs` (lines 207-242): the rates of
the modes matching the current resolution, adjacent entries within
`RATE_EPSILON = 0.01` collapsed; no sort. -/
def swayGetRates (outputs : List SwayOutput) (output_name : String) :
    Except BackendError (List RateEntry) :=
  match outputs.find? (fun o => o.name == output_name) with
  | none => .error (.GetRates (.NoOutput output_name))
  | some output =>
    match output.current_mode with
    | none => .error (.GetRates .GetCurrent)
    | some current_mode =>
      let entries := (output.modes.filter (fun m =>
        m.height == current_mode.height &&
        m.width == current_mode.width)).map (fun m =>
          RateEntry.mk ((m.refresh : ℚ) / 1000)
            (m.refresh == current_mode.refresh))
      .ok (dedupBy (fun a b => decide (|a.val - b.val| < 1 / 100)) entries)

/-- `get_resolutions` from `src/backend/libxrandr.rs` (lines 76-107):
entries of the output's modes, sorted **descending by pixel count only**
(`b` compared to `a`), then `dedup()` — adjacent entries equal on **both**
fields (`val` and `current`, the derived `PartialEq`) collapsed. -/
def libxrandrGetResolutions (outputs : List XOutput) (res : ScreenResources)
    (output_name : String) : Except BackendError (List ResolutionEntry) :=
  match outputs.find? (fun o => o.name == output_name) with
  | none => .error (.GetResolutions (.NoOutput output_name))
  | some output =>
    match output.current_mode with
    | none => .error (.GetResolutions .GetCurrent)
    | some current_mode_id =>
      match res.mode current_mode_id with
      | none => .error (.GetResolutions .GetCurrent)
      | some current_mode =>
        let entries := (res.modes.filter
          (fun m => output.modes.contains m.xid)).map (fun m =>
            ResolutionEntry.mk ⟨m.width, m.height⟩
              (m.width == current_mode.width &&
                m.height == current_mode.height))
        .ok (dedup (sortBy (fun a b =>
          cmpOf (b.val.width * b.val.height) (a.val.width * a.val.height))
          entries))

/-- `Ord::cmp` for `Mode` (`src/action/mode.rs` lines 25-39): pixel count,
then width, then rate (`f64::total_cmp`). -/
def Mode.cmp (a b : Mode) : Ordering :=
  ((cmpOf (a.width * a.height) (b.width * b.height)).then
    (cmpOf a.width b.width)).then (cmpOf a.rate b.rate)

/-- An output as parsed by the xrandr CLI scraper
(`src/backend/xrandr_cli.rs`); its modes carry their own `current`
markers. -/
structure CliXMode where
  width : Nat
  height : Nat
  rate : ℚ
  current : Bool
  deriving DecidableEq, Repr

structure CliOutput where
  name : String
  connected : Bool
  enabled : Bool
  modes : List CliXMode
  deriving DecidableEq, Repr

/-- `get_modes` from `src/backend/xrandr_cli.rs` (lines 236-265): entries
sorted by `Mode::cmp(&b.val, &a.val)` — descending by (pixel count,
width, rate) — then `dedup()` on the derived `PartialEq` of `ModeEntry`
(exact equality of `val` and `current`). -/
def cliGetModes (outputs : List CliOutput) (output_name : String) :
    Except BackendError (List ModeEntry) :=
  match outputs.find? (fun o => o.name == output_name) with
  | none => .error (.GetResolutions (.NoOutput output_name))
  | some output =>
    let entries := output.modes.map (fun m =>
      ModeEntry.mk ⟨m.width, m.height, m.rate⟩ m.current)
    .ok (dedup (sortBy (fun a b => Mode.cmp b.val a.val) entries))

/-! ### Minimum-fold lemmas for the normalization step -/

theorem foldl_min_le {β : Type} (g : β → Int) (l : List β) (a : Int) :
    l.foldl (fun acc b => min acc (g b)) a ≤ a ∧
      ∀ b ∈ l, l.foldl (fun acc b => min acc (g b)) a ≤ g b := by
  induction l generalizing a with
  | nil => simp
  | cons b bs ih =>
    obtain ⟨h1, h2⟩ := ih (min a (g b))
    refine ⟨le_trans h1 (min_le_left _ _), ?_⟩
    intro c hc
    rcases List.mem_cons.mp hc with rfl | hc
    · simpa using le_trans h1 (min_le_right _ _)
    · simpa using h2 c hc

theorem foldl_min_attained {β : Type} (g : β → Int) (l : List β) (a : Int) :
    l.foldl (fun acc b => min acc (g b)) a = a ∨
      ∃ b ∈ l, l.foldl (fun acc b => min acc (g b)) a = g b := by
  induction l generalizing a with
  | nil => simp
  | cons b bs ih =>
    rcases ih (min a (g b)) with h | ⟨c, hc, h⟩
    · rcases min_choice a (g b) with hm | hm
      · left; simpa [hm] using h
      · right; exact ⟨b, List.mem_cons_self b bs, by simpa [hm] using h⟩
    · right; exact ⟨c, List.mem_cons_of_mem b hc, by simpa using h⟩

theorem pairfold_fst (l : List (Int × Int)) (p : Int × Int) :
    (l.foldl (fun a b => (min a.1 b.1, min a.2 b.2)) p).1 =
      l.foldl (fun a b => min a b.1) p.1 := by
  induction l generalizing p with
  | nil => rfl
  | cons q l ih => simpa using ih (min p.1 q.1, min p.2 q.2)

theorem pairfold_snd (l : List (Int × Int)) (p : Int × Int) :
    (l.foldl (fun a b => (min a.1 b.1, min a.2 b.2)) p).2 =
      l.foldl (fun a b => min a b.2) p.2 := by
  induction l generalizing p with
  | nil => rfl
  | cons q l ih => simpa using ih (min p.1 q.1, min p.2 q.2)

/-- What `normalize_all_outputs` computes on a non-empty list: one common
translation by the componentwise minimum of all origins, which is both a
lower bound of and attained by the origins. -/
theorem normalize_spec (l : List SwayOutput) (hl : l ≠ []) :
    ∃ left top,
      normalize_all_outputs l = some (l.map (offsetOutput left top)) ∧
      (∀ p ∈ l, left ≤ p.rect.x ∧ top ≤ p.rect.y) ∧
      (∃ p ∈ l, p.rect.x = left) ∧ (∃ p ∈ l, p.rect.y = top) := by
  match l with
  | [] => exact absurd rfl hl
  | o0 :: rest =>
    set lt := ((rest.map (fun o => (o.rect.x, o.rect.y))).foldl
      (fun a b => (min a.1 b.1, min a.2 b.2)) (o0.rect.x, o0.rect.y))
      with hlt
    refine ⟨lt.1, lt.2, rfl, ?_, ?_, ?_⟩
    · intro p hp
      have hx := foldl_min_le (fun o : SwayOutput => o.rect.x) rest o0.rect.x
      have hy := foldl_min_le (fun o : SwayOutput => o.rect.y) rest o0.rect.y
      have h1 : lt.1 = rest.foldl (fun acc o => min acc o.rect.x)
          o0.rect.x := by
        rw [hlt, pairfold_fst, List.foldl_map]
      have h2 : lt.2 = rest.foldl (fun acc o => min acc o.rect.y)
          o0.rect.y := by
        rw [hlt, pairfold_snd, List.foldl_map]
      rcases List.mem_cons.mp hp with rfl | hp
      · exact ⟨h1 ▸ hx.1, h2 ▸ hy.1⟩
      · exact ⟨h1 ▸ hx.2 p hp, h2 ▸ hy.2 p hp⟩
    · have h1 : lt.1 = rest.foldl (fun acc o => min acc o.rect.x)
          o0.rect.x := by
        rw [hlt, pairfold_fst, List.foldl_map]
      rcases foldl_min_attained (fun o : SwayOutput => o.rect.x) rest
          o0.rect.x with h | ⟨b, hb, h⟩
      · exact ⟨o0, List.mem_cons_self _ _, (h1.trans h).symm⟩
      · exact ⟨b, List.mem_cons_of_mem _ hb, (h1.trans h).symm⟩
    · have h2 : lt.2 = rest.foldl (fun acc o => min acc o.rect.y)
          o0.rect.y := by
        rw [hlt, pairfold_snd, List.foldl_map]
      rcases foldl_min_attained (fun o : SwayOutput => o.rect.y) rest
          o0.rect.y with h | ⟨b, hb, h⟩
      · exact ⟨o0, List.mem_cons_self _ _, (h2.trans h).symm⟩
      · exact ⟨b, List.mem_cons_of_mem _ hb, (h2.trans h).symm⟩

/-- `find?` commutes with a pointwise name-preserving map. -/
theorem find?_map_name (l : List SwayOutput) (f : SwayOutput → SwayOutput)
    (hf : ∀ p, (f p).name = p.name) (q : String) :
    (l.map f).find? (fun p => p.name == q) =
      (l.find? (fun p => p.name == q)).map f := by
  induction l with
  | nil => rfl
  | cons a l ih =>
    by_cases h : a.name = q
    · have h1 : ((f a).name == q) = true := by simp [hf a, h]
      have h2 : (a.name == q) = true := by simp [h]
      simp [List.map_cons, List.find?_cons, h1, h2]
    · have h1 : ((f a).name == q) = false := by simp [hf a, h]
      have h2 : (a.name == q) = false := by simp [h]
      simp only [List.map_cons, List.find?_cons, h1, h2, ih]

/-! ### Comparator characterizations (Rust `sort_by` comparators) -/

theorem cmpOf_lt_of_lt {β : Type} [LinearOrder β] {x y : β} (h : x < y) :
    cmpOf x y = .lt := by
  unfold cmpOf; rw [if_pos h]

theorem cmpOf_gt_of_gt {β : Type} [LinearOrder β] {x y : β} (h : y < x) :
    cmpOf x y = .gt := by
  unfold cmpOf; rw [if_neg (lt_asymm h), if_pos h]

theorem cmpOf_eq_of_eq {β : Type} [LinearOrder β] {x y : β} (h : x = y) :
    cmpOf x y = .eq := by
  subst h; unfold cmpOf; rw [if_neg (lt_irrefl x), if_neg (lt_irrefl x)]

theorem lt_then (c : Ordering) : Ordering.lt.then c = .lt := rfl

theorem gt_then (c : Ordering) : Ordering.gt.then c = .gt := rfl

theorem eq_then (c : Ordering) : Ordering.eq.then c = c := rfl

theorem lt_bne_gt : (Ordering.lt != Ordering.gt) = true := rfl

theorem eq_bne_gt : (Ordering.eq != Ordering.gt) = true := rfl

theorem gt_bne_gt : (Ordering.gt != Ordering.gt) = false := rfl

theorem cmpOf_ne_gt_iff {β : Type} [LinearOrder β] {x y : β} :
    (cmpOf x y != .gt) = true ↔ x ≤ y := by
  rcases lt_trichotomy x y with h | h | h
  · rw [cmpOf_lt_of_lt h, lt_bne_gt]; simp [h.le]
  · rw [cmpOf_eq_of_eq h, eq_bne_gt]; simp [h.le]
  · rw [cmpOf_gt_of_gt h, gt_bne_gt]; simp [not_le.mpr h]

theorem then2_ne_gt_iff {β₁ β₂ : Type} [LinearOrder β₁] [LinearOrder β₂]
    {x₁ y₁ : β₁} {x₂ y₂ : β₂} :
    (((cmpOf x₁ y₁).then (cmpOf x₂ y₂)) != .gt) = true ↔
      (x₁ < y₁ ∨ (x₁ = y₁ ∧ x₂ ≤ y₂)) := by
  rcases lt_trichotomy x₁ y₁ with h | h | h
  · rw [cmpOf_lt_of_lt h, lt_then, lt_bne_gt]; simp [h]
  · rw [cmpOf_eq_of_eq h, eq_then, cmpOf_ne_gt_iff]
    subst h; simp [lt_irrefl]
  · rw [cmpOf_gt_of_gt h, gt_then, gt_bne_gt]
    simp [lt_asymm h, ne_of_gt h]

theorem then3_ne_gt_iff {β₁ β₂ β₃ : Type}
    [LinearOrder β₁] [LinearOrder β₂] [LinearOrder β₃]
    {x₁ y₁ : β₁} {x₂ y₂ : β₂} {x₃ y₃ : β₃} :
    ((((cmpOf x₁ y₁).then (cmpOf x₂ y₂)).then (cmpOf x₃ y₃)) != .gt) = true ↔
      (x₁ < y₁ ∨ (x₁ = y₁ ∧ (x₂ < y₂ ∨ (x₂ = y₂ ∧ x₃ ≤ y₃)))) := by
  rcases lt_trichotomy x₁ y₁ with h | h | h
  · rw [cmpOf_lt_of_lt h, lt_then, lt_then, lt_bne_gt]; simp [h]
  · rw [cmpOf_eq_of_eq h, eq_then, then2_ne_gt_iff]
    subst h; simp [lt_irrefl]
  · rw [cmpOf_gt_of_gt h, gt_then, gt_then, gt_bne_gt]
    simp [lt_asymm h, ne_of_gt h]

/-! ### Lexicographic order facts used for the sort comparators -/

theorem lex2_trans {β₁ β₂ : Type} [LinearOrder β₁] [LinearOrder β₂]
    {x₁ y₁ z₁ : β₁} {x₂ y₂ z₂ : β₂}
    (h1 : x₁ < y₁ ∨ (x₁ = y₁ ∧ x₂ ≤ y₂))
    (h2 : y₁ < z₁ ∨ (y₁ = z₁ ∧ y₂ ≤ z₂)) :
    x₁ < z₁ ∨ (x₁ = z₁ ∧ x₂ ≤ z₂) := by
  rcases h1 with h1 | ⟨e1, h1⟩ <;> rcases h2 with h2 | ⟨e2, h2⟩
  · exact .inl (h1.trans h2)
  · exact .inl (e2 ▸ h1)
  · exact .inl (e1 ▸ h2)
  · exact .inr ⟨e1.trans e2, h1.trans h2⟩

theorem lex2_total {β₁ β₂ : Type} [LinearOrder β₁] [LinearOrder β₂]
    (x₁ y₁ : β₁) (x₂ y₂ : β₂) :
    (x₁ < y₁ ∨ (x₁ = y₁ ∧ x₂ ≤ y₂)) ∨
      (y₁ < x₁ ∨ (y₁ = x₁ ∧ y₂ ≤ x₂)) := by
  rcases lt_trichotomy x₁ y₁ with h | h | h
  · exact .inl (.inl h)
  · rcases le_total x₂ y₂ with h2 | h2
    · exact .inl (.inr ⟨h, h2⟩)
    · exact .inr (.inr ⟨h.symm, h2⟩)
  · exact .inr (.inl h)

theorem lex3_trans {β₁ β₂ β₃ : Type}
    [LinearOrder β₁] [LinearOrder β₂] [LinearOrder β₃]
    {x₁ y₁ z₁ : β₁} {x₂ y₂ z₂ : β₂} {x₃ y₃ z₃ : β₃}
    (h1 : x₁ < y₁ ∨ (x₁ = y₁ ∧ (x₂ < y₂ ∨ (x₂ = y₂ ∧ x₃ ≤ y₃))))
    (h2 : y₁ < z₁ ∨ (y₁ = z₁ ∧ (y₂ < z₂ ∨ (y₂ = z₂ ∧ y₃ ≤ z₃)))) :
    x₁ < z₁ ∨ (x₁ = z₁ ∧ (x₂ < z₂ ∨ (x₂ = z₂ ∧ x₃ ≤ z₃))) := by
  rcases h1 with h1 | ⟨e1, h1⟩ <;> rcases h2 with h2 | ⟨e2, h2⟩
  · exact .inl (h1.trans h2)
  · exact .inl (e2 ▸ h1)
  · exact .inl (e1 ▸ h2)
  · exact .inr ⟨e1.trans e2, lex2_trans h1 h2⟩

theorem lex3_total {β₁ β₂ β₃ : Type}
    [LinearOrder β₁] [LinearOrder β₂] [LinearOrder β₃]
    (x₁ y₁ : β₁) (x₂ y₂ : β₂) (x₃ y₃ : β₃) :
    (x₁ < y₁ ∨ (x₁ = y₁ ∧ (x₂ < y₂ ∨ (x₂ = y₂ ∧ x₃ ≤ y₃)))) ∨
      (y₁ < x₁ ∨ (y₁ = x₁ ∧ (y₂ < x₂ ∨ (y₂ = x₂ ∧ y₃ ≤ x₃)))) := by
  rcases lt_trichotomy x₁ y₁ with h | h | h
  · exact .inl (.inl h)
  · rcases lex2_total x₂ y₂ x₃ y₃ with h2 | h2
    · exact .inl (.inr ⟨h, h2⟩)
    · exact .inr (.inr ⟨h.symm, h2⟩)
  · exact .inr (.inl h)

/-! ### `dedup_by` facts -/

theorem dedupByLoop_sublist {α : Type} (p : α → α → Bool) :
    ∀ (l : List α) (prev), List.Sublist (dedupByLoop p prev l) l := by
  intro l
  induction l with
  | nil => intro prev; simp [dedupByLoop]
  | cons b bs ih =>
    intro prev
    by_cases h : p b prev = true
    · simp only [dedupByLoop, h, if_true]
      exact (ih prev).cons b
    · have h' : p b prev = false := by simpa using h
      simp only [dedupByLoop, h', Bool.false_eq_true, if_false]
      exact (ih b).cons₂ b

theorem dedupBy_sublist {α : Type} (p : α → α → Bool) (l : List α) :
    List.Sublist (dedupBy p l) l := by
  cases l with
  | nil => simp [dedupBy]
  | cons a as_ => exact (dedupByLoop_sublist p as_ a).cons₂ a

theorem dedupByLoop_chain' {α : Type} (p : α → α → Bool) :
    ∀ (l : List α) (prev),
      List.Chain' (fun a b => p b a = false) (prev :: dedupByLoop p prev l) := by
  intro l
  induction l with
  | nil => intro prev; simp [dedupByLoop]
  | cons b bs ih =>
    intro prev
    by_cases h : p b prev = true
    · simp only [dedupByLoop, h, if_true]
      exact ih prev
    · have h' : p b prev = false := by simpa using h
      simp only [dedupByLoop, h', Bool.false_eq_true, if_false]
      rw [List.chain'_cons]
      exact ⟨h', ih b⟩

theorem dedupBy_chain' {α : Type} (p : α → α → Bool) (l : List α) :
    List.Chain' (fun a b => p b a = false) (dedupBy p l) := by
  cases l with
  | nil => simp [dedupBy]
  | cons a as_ => exact dedupByLoop_chain' p as_ a

/-- Either `find?` finds a first satisfying element, or nothing
satisfies. -/
theorem find?_cases {α : Type} (l : List α) (p : α → Bool) :
    (∃ m, l.find? p = some m ∧ m ∈ l ∧ p m) ∨
      (l.find? p = none ∧ ∀ m ∈ l, ¬ p m) := by
  cases h : l.find? p with
  | none => exact .inr ⟨rfl, by simpa using List.find?_eq_none.mp h⟩
  | some m =>
    exact .inl ⟨m, rfl, List.mem_of_find?_eq_some h, List.find?_some h⟩

/-! ## Claims C5 and C10: sway repositioning and normalization -/

/-- C10: on every non-empty output list, `normalize_all_outputs` succeeds
and applies one common translation: every rectangle keeps its width and
height, and the difference between any two outputs' origins is unchanged
— so repositioning one output never alters the relative arrangement or
sizes of the others. -/
theorem normalize_preserves_shape_and_arrangement
    (outputs : List SwayOutput) (hne : outputs ≠ []) :
    ∃ r, normalize_all_outputs outputs = some r ∧
      ∃ hlen : r.length = outputs.length,
        (∀ i : Fin outputs.length,
          (r.get (Fin.cast hlen.symm i)).rect.width =
              (outputs.get i).rect.width ∧
            (r.get (Fin.cast hlen.symm i)).rect.height =
              (outputs.get i).rect.height) ∧
        (∀ i j : Fin outputs.length,
          (r.get (Fin.cast hlen.symm i)).rect.x -
                (r.get (Fin.cast hlen.symm j)).rect.x =
              (outputs.get i).rect.x - (outputs.get j).rect.x ∧
            (r.get (Fin.cast hlen.symm i)).rect.y -
                (r.get (Fin.cast hlen.symm j)).rect.y =
              (outputs.get i).rect.y - (outputs.get j).rect.y) := by
  obtain ⟨left, top, hnorm, -, -, -⟩ := normalize_spec outputs hne
  refine ⟨_, hnorm, by simp, ?_, ?_⟩
  · intro i
    simp [List.get_eq_getElem, List.getElem_map, offsetOutput]
  · intro i j
    simp only [List.get_eq_getElem, List.getElem_map, Fin.coe_cast,
      offsetOutput]
    omega

/-- C10 witness: a concrete two-output arrangement. -/
theorem normalize_preserves_shape_and_arrangement_witness :
    ∃ r, normalize_all_outputs
        [⟨"eDP-1", ⟨-1920, 3, 1920, 1080⟩, none, []⟩,
         ⟨"HDMI-1", ⟨0, 0, 2560, 1440⟩, none, []⟩] = some r ∧
      ∃ hlen : r.length = 2,
        (∀ i : Fin 2,
          (r.get (Fin.cast hlen.symm i)).rect.width =
              (([⟨"eDP-1", ⟨-1920, 3, 1920, 1080⟩, none, []⟩,
                 ⟨"HDMI-1", ⟨0, 0, 2560, 1440⟩, none, []⟩] :
                List SwayOutput).get i).rect.width ∧
            (r.get (Fin.cast hlen.symm i)).rect.height =
              (([⟨"eDP-1", ⟨-1920, 3, 1920, 1080⟩, none, []⟩,
                 ⟨"HDMI-1", ⟨0, 0, 2560, 1440⟩, none, []⟩] :
                List SwayOutput).get i).rect.height) ∧
        (∀ i j : Fin 2,
          (r.get (Fin.cast hlen.symm i)).rect.x -
                (r.get (Fin.cast hlen.symm j)).rect.x =
              (([⟨"eDP-1", ⟨-1920, 3, 1920, 1080⟩, none, []⟩,
                 ⟨"HDMI-1", ⟨0, 0, 2560, 1440⟩, none, []⟩] :
                List SwayOutput).get i).rect.x -
              (([⟨"eDP-1", ⟨-1920, 3, 1920, 1080⟩, none, []⟩,
                 ⟨"HDMI-1", ⟨0, 0, 2560, 1440⟩, none, []⟩] :
                List SwayOutput).get j).rect.x ∧
            (r.get (Fin.cast hlen.symm i)).rect.y -
                (r.get (Fin.cast hlen.symm j)).rect.y =
              (([⟨"eDP-1", ⟨-1920, 3, 1920, 1080⟩, none, []⟩,
                 ⟨"HDMI-1", ⟨0, 0, 2560, 1440⟩, none, []⟩] :
                List SwayOutput).get i).rect.y -
              (([⟨"eDP-1", ⟨-1920, 3, 1920, 1080⟩, none, []⟩,
                 ⟨"HDMI-1", ⟨0, 0, 2560, 1440⟩, none, []⟩] :
                List SwayOutput).get j).rect.y) :=
  normalize_preserves_shape_and_arrangement
    [⟨"eDP-1", ⟨-1920, 3, 1920, 1080⟩, none, []⟩,
     ⟨"HDMI-1", ⟨0, 0, 2560, 1440⟩, none, []⟩] (by decide)

/-- C5: for the sway IPC driver's repositioning pipeline on any output
set containing the (distinct) moved and reference outputs: after the
renormalization step the minimum x and minimum y over all rectangles are
exactly zero, the moved output's rectangle keeps its size, and it
satisfies the relation equation with respect to the reference output's
rectangle (`LeftOf: x = rel_x - w`, `RightOf: x = rel_x + rel_w`,
`Above: y = rel_y - h`, `Below: y = rel_y + rel_h`, `SameAs`: identical
origin). -/
theorem sway_set_position_geometry
    (outputs : List SwayOutput) (name relName : String) (relation : Relation)
    (o ro : SwayOutput)
    (hfind : outputs.find? (fun p => p.name == name) = some o)
    (hrel : outputs.find? (fun p => p.name == relName) = some ro)
    (hne : name ≠ relName) :
    ∃ r, normalize_all_outputs (swayNewOutputs outputs o ro relation) =
        some r ∧
      ∃ mo ro',
        r.find? (fun p => p.name == name) = some mo ∧
        r.find? (fun p => p.name == relName) = some ro' ∧
        mo.rect.width = o.rect.width ∧ mo.rect.height = o.rect.height ∧
        relationEq relation mo.rect ro'.rect ∧
        (∀ p ∈ r, 0 ≤ p.rect.x ∧ 0 ≤ p.rect.y) ∧
        (∃ p ∈ r, p.rect.x = 0) ∧ (∃ p ∈ r, p.rect.y = 0) := by
  have honame : o.name = name := by simpa using List.find?_some hfind
  have hroname : ro.name = relName := by simpa using List.find?_some hrel
  set xy := setPositionNewXY relation o.rect ro.rect with hxy
  set nout : SwayOutput :=
    { o with rect := { o.rect with x := xy.1, y := xy.2 } } with hnout
  set g : SwayOutput → SwayOutput :=
    (fun p => if p.name == nout.name then nout else p) with hg
  have hgname : ∀ p, (g p).name = p.name := by
    intro p
    rw [hg]
    by_cases h : p.name == nout.name
    · simp only [h, if_pos rfl]
      simpa using (beq_iff_eq.mp h).symm
    · simp [h]
  have hxs : swayNewOutputs outputs o ro relation = outputs.map g := rfl
  have hxsne : outputs.map g ≠ [] := by
    have : o ∈ outputs := List.mem_of_find?_eq_some hfind
    cases outputs with
    | nil => cases this
    | cons a l => simp
  obtain ⟨left, top, hnorm, hbound, hx0, hy0⟩ :=
    normalize_spec (outputs.map g) hxsne
  rw [hxs]
  refine ⟨_, hnorm, ?_⟩
  have hgo : g o = nout := by
    rw [hg]; simp
  have hgro : g ro = ro := by
    rw [hg, hnout]
    have : ro.name ≠ o.name := by rw [honame, hroname]; exact fun h => hne h.symm
    simp [this]
  have hfind1 : (outputs.map g).find? (fun p => p.name == name) =
      some nout := by
    rw [find?_map_name outputs g hgname name, hfind]
    simp [hgo]
  have hfind2 : (outputs.map g).find? (fun p => p.name == relName) =
      some ro := by
    rw [find?_map_name outputs g hgname relName, hrel]
    simp [hgro]
  refine ⟨offsetOutput left top nout, offsetOutput left top ro, ?_, ?_,
    ?_, ?_, ?_, ?_, ?_, ?_⟩
  · rw [find?_map_name (outputs.map g) (offsetOutput left top)
      (fun p => rfl) name, hfind1]
    simp
  · rw [find?_map_name (outputs.map g) (offsetOutput left top)
      (fun p => rfl) relName, hfind2]
    simp
  · rfl
  · rfl
  · cases relation <;>
      simp [relationEq, offsetOutput, hnout, hxy, setPositionNewXY] <;>
      omega
  · intro p hp
    obtain ⟨q, hq, rfl⟩ := List.mem_map.mp hp
    obtain ⟨h1, h2⟩ := hbound q hq
    exact ⟨by simp [offsetOutput]; omega, by simp [offsetOutput]; omega⟩
  · obtain ⟨q, hq, hqx⟩ := hx0
    exact ⟨offsetOutput left top q, List.mem_map_of_mem _ hq,
      by simp [offsetOutput, hqx]⟩
  · obtain ⟨q, hq, hqy⟩ := hy0
    exact ⟨offsetOutput left top q, List.mem_map_of_mem _ hq,
      by simp [offsetOutput, hqy]⟩

/-- C5 witness: moving `HDMI-1` to the left of `eDP-1`. -/
theorem sway_set_position_geometry_witness :
    ∃ r, normalize_all_outputs
        (swayNewOutputs
          [⟨"eDP-1", ⟨0, 0, 1920, 1080⟩, none, []⟩,
           ⟨"HDMI-1", ⟨1920, 0, 2560, 1440⟩, none, []⟩]
          ⟨"HDMI-1", ⟨1920, 0, 2560, 1440⟩, none, []⟩
          ⟨"eDP-1", ⟨0, 0, 1920, 1080⟩, none, []⟩ .LeftOf) = some r ∧
      ∃ mo ro',
        r.find? (fun p => p.name == "HDMI-1") = some mo ∧
        r.find? (fun p => p.name == "eDP-1") = some ro' ∧
        mo.rect.width = (2560 : Int) ∧ mo.rect.height = (1440 : Int) ∧
        relationEq .LeftOf mo.rect ro'.rect ∧
        (∀ p ∈ r, 0 ≤ p.rect.x ∧ 0 ≤ p.rect.y) ∧
        (∃ p ∈ r, p.rect.x = 0) ∧ (∃ p ∈ r, p.rect.y = 0) :=
  sway_set_position_geometry
    [⟨"eDP-1", ⟨0, 0, 1920, 1080⟩, none, []⟩,
     ⟨"HDMI-1", ⟨1920, 0, 2560, 1440⟩, none, []⟩]
    "HDMI-1" "eDP-1" .LeftOf
    ⟨"HDMI-1", ⟨1920, 0, 2560, 1440⟩, none, []⟩
    ⟨"eDP-1", ⟨0, 0, 1920, 1080⟩, none, []⟩
    (by decide) (by decide) (by decide)

/-- The `sort_by` then `dedup_by` pipeline yields a list pairwise ordered
by the comparator's order. -/
theorem sortBy_dedupBy_pairwise {α : Type} (cmp : α → α → Ordering)
    (p : α → α → Bool) (R : α → α → Prop)
    (hchar : ∀ a b, ((cmp a b != .gt) = true) ↔ R a b)
    (htrans : ∀ a b c, R a b → R b c → R a c)
    (htotal : ∀ a b, R a b ∨ R b a)
    (l : List α) :
    (dedupBy p (sortBy cmp l)).Pairwise R := by
  have hbt : ∀ (a b c : α), ((cmp a b != .gt) = true) →
      ((cmp b c != .gt) = true) → ((cmp a c != .gt) = true) := by
    intro a b c hab hbc
    exact (hchar a c).mpr
      (htrans a b c ((hchar a b).mp hab) ((hchar b c).mp hbc))
  have hbtot : ∀ (a b : α),
      ((cmp a b != .gt) || (cmp b a != .gt)) = true := by
    intro a b
    rcases htotal a b with h | h
    · simp [(hchar a b).mpr h]
    · simp [(hchar b a).mpr h]
  have hsorted := List.sorted_mergeSort hbt hbtot l
  have hs : (sortBy cmp l).Pairwise R := by
    rw [sortBy]
    exact hsorted.imp (fun h => (hchar _ _).mp h)
  exact hs.sublist (dedupBy_sublist p _)

/-- The `dedup_by` output never has adjacent entries the bucket predicate
identifies. -/
theorem dedupBy_chain'_of {α : Type} (p : α → α → Bool) (S : α → α → Prop)
    (h : ∀ a b, p b a = false → S a b) (l : List α) :
    (dedupBy p l).Chain' S :=
  List.Chain'.imp (fun a b hab => h a b hab) (dedupBy_chain' p l)

/-! ## Claim C6: mode/resolution list ordering and deduplication -/

/-- C6 (amended): each driver deduplicates only adjacent entries after
its own sort, with its own equality, and the orders differ per driver:
the sway driver's `get_resolutions` is sorted **ascending** by
(pixel count, width) with adjacent equal-resolution entries collapsed;
the libxrandr driver's `get_resolutions` is sorted descending by pixel
count alone with adjacent entries equal on value **and** current flag
collapsed; the CLI driver's `get_modes` is sorted descending by
(pixel count, width, rate) with adjacent fully-equal entries collapsed;
and the 0.01-rate-epsilon collapse occurs only in the sway driver's
(unsorted) `get_rates`. -/
theorem mode_lists_sorted_and_deduped
    (souts : List SwayOutput) (xouts : List XOutput) (res : ScreenResources)
    (couts : List CliOutput) (name : String) :
    (∀ rs, swayGetResolutions souts name = .ok rs →
      rs.Pairwise (fun a b =>
        a.val.width * a.val.height < b.val.width * b.val.height ∨
          (a.val.width * a.val.height = b.val.width * b.val.height ∧
            a.val.width ≤ b.val.width)) ∧
      rs.Chain' (fun a b =>
        ¬(b.val.width = a.val.width ∧ b.val.height = a.val.height))) ∧
    (∀ rs, libxrandrGetResolutions xouts res name = .ok rs →
      rs.Pairwise (fun a b =>
        b.val.width * b.val.height ≤ a.val.width * a.val.height) ∧
      rs.Chain' (fun a b => b ≠ a)) ∧
    (∀ ms, cliGetModes couts name = .ok ms →
      ms.Pairwise (fun a b =>
        b.val.width * b.val.height < a.val.width * a.val.height ∨
          (b.val.width * b.val.height = a.val.width * a.val.height ∧
            (b.val.width < a.val.width ∨
              (b.val.width = a.val.width ∧ b.val.rate ≤ a.val.rate)))) ∧
      ms.Chain' (fun a b => b ≠ a)) ∧
    (∀ rs, swayGetRates souts name = .ok rs →
      rs.Chain' (fun a b => ¬(|b.val - a.val| < 1 / 100))) := by
  refine ⟨?_, ?_, ?_, ?_⟩
  · intro rs h
    cases hfo : souts.find? (fun o => o.name == name) with
    | none => simp [swayGetResolutions, hfo] at h
    | some output =>
      cases hcm : output.current_mode with
      | none => simp [swayGetResolutions, hfo, hcm] at h
      | some cur =>
        simp only [swayGetResolutions, hfo, hcm, Except.ok.injEq] at h
        subst h
        constructor
        · refine sortBy_dedupBy_pairwise swayResolutionOrd _ _ ?_ ?_ ?_ _
          · intro a b
            exact then2_ne_gt_iff
          · intro a b c
            exact lex2_trans
          · intro a b
            exact lex2_total _ _ _ _
        · refine dedupBy_chain'_of _ _ ?_ _
          intro a b hab
          intro ⟨e1, e2⟩
          simp [e1, e2] at hab
  · intro rs h
    cases hfo : xouts.find? (fun o => o.name == name) with
    | none => simp [libxrandrGetResolutions, hfo] at h
    | some output =>
      cases hcm : output.current_mode with
      | none => simp [libxrandrGetResolutions, hfo, hcm] at h
      | some cur_id =>
        cases hmi : res.mode cur_id with
        | none => simp [libxrandrGetResolutions, hfo, hcm, hmi] at h
        | some cur =>
          simp only [libxrandrGetResolutions, hfo, hcm, hmi,
            Except.ok.injEq] at h
          subst h
          constructor
          · refine sortBy_dedupBy_pairwise _ _ _ ?_ ?_ ?_ _
            · intro a b
              exact cmpOf_ne_gt_iff
            · intro a b c h1 h2
              exact h2.trans h1
            · intro a b
              exact le_total _ _
          · refine dedupBy_chain'_of _ _ ?_ _
            intro a b hab
            simpa using hab
  · intro ms h
    cases hfo : couts.find? (fun o => o.name == name) with
    | none => simp [cliGetModes, hfo] at h
    | some output =>
      simp only [cliGetModes, hfo, Except.ok.injEq] at h
      subst h
      constructor
      · refine sortBy_dedupBy_pairwise _ _ _ ?_ ?_ ?_ _
        · intro a b
          rw [Mode.cmp]
          exact then3_ne_gt_iff
        · intro a b c h1 h2
          exact lex3_trans h2 h1
        · intro a b
          rcases lex3_total (b.val.width * b.val.height)
              (a.val.width * a.val.height) b.val.width a.val.width
              b.val.rate a.val.rate with h | h
          · exact .inl h
          · exact .inr h
      · refine dedupBy_chain'_of _ _ ?_ _
        intro a b hab
        simpa using hab
  · intro rs h
    cases hfo : souts.find? (fun o => o.name == name) with
    | none => simp [swayGetRates, hfo] at h
    | some output =>
      cases hcm : output.current_mode with
      | none => simp [swayGetRates, hfo, hcm] at h
      | some cur =>
        simp only [swayGetRates, hfo, hcm, Except.ok.injEq] at h
        subst h
        refine dedupBy_chain'_of _ _ ?_ _
        intro a b hab
        simpa using hab

/-- C6 (counterexample): the sway driver's resolution list comes back
**ascending**: with modes 640x480 and 1920x1080 offered, the returned
list is `[640x480, 1920x1080]`, which is not descending by pixel count —
refuting the claimed strict descending (width*height, width, rate)
order. -/
theorem sway_resolutions_sorted_ascending_counterexample :
    swayGetResolutions
        [⟨"eDP-1", ⟨0, 0, 1920, 1080⟩, some ⟨1920, 1080, 60000⟩,
          [⟨640, 480, 60000⟩, ⟨1920, 1080, 60000⟩]⟩] "eDP-1" =
      .ok [⟨⟨640, 480⟩, false⟩, ⟨⟨1920, 1080⟩, true⟩] ∧
    ¬ List.Pairwise (fun a b : ResolutionEntry =>
        b.val.width * b.val.height ≤ a.val.width * a.val.height)
      [⟨⟨640, 480⟩, false⟩, ⟨⟨1920, 1080⟩, true⟩] := by
  constructor
  · simp [swayGetResolutions, sortBy, swayResolutionOrd, cmpOf, dedupBy,
      dedupByLoop, List.mergeSort, List.merge,
      Ordering.then, lt_then, gt_then, eq_then, lt_bne_gt, gt_bne_gt,
      eq_bne_gt]
  · decide

/-- C6 witness: the amended ordering facts evaluated on concrete output
sets for all three drivers (and sway's rate list). -/
theorem mode_lists_sorted_and_deduped_witness :
    List.Pairwise (fun a b : ResolutionEntry =>
        a.val.width * a.val.height < b.val.width * b.val.height ∨
          (a.val.width * a.val.height = b.val.width * b.val.height ∧
            a.val.width ≤ b.val.width))
      [⟨⟨640, 480⟩, false⟩, ⟨⟨1920, 1080⟩, true⟩] ∧
    List.Chain' (fun a b : ResolutionEntry =>
        ¬(b.val.width = a.val.width ∧ b.val.height = a.val.height))
      [⟨⟨640, 480⟩, false⟩, ⟨⟨1920, 1080⟩, true⟩] ∧
    List.Pairwise (fun a b : ResolutionEntry =>
        b.val.width * b.val.height ≤ a.val.width * a.val.height)
      [⟨⟨1920, 1080⟩, true⟩, ⟨⟨640, 480⟩, false⟩] ∧
    List.Pairwise (fun a b : ModeEntry =>
        b.val.width * b.val.height < a.val.width * a.val.height ∨
          (b.val.width * b.val.height = a.val.width * a.val.height ∧
            (b.val.width < a.val.width ∨
              (b.val.width = a.val.width ∧ b.val.rate ≤ a.val.rate))))
      [⟨⟨1920, 1080, 60⟩, true⟩, ⟨⟨640, 480, 60⟩, false⟩] ∧
    List.Chain' (fun a b : RateEntry => ¬(|b.val - a.val| < 1 / 100))
      [⟨(60000 : ℚ) / 1000, true⟩] := by
  obtain ⟨h1, h2, h3, h4⟩ := mode_lists_sorted_and_deduped
    [⟨"eDP-1", ⟨0, 0, 1920, 1080⟩, some ⟨1920, 1080, 60000⟩,
      [⟨640, 480, 60000⟩, ⟨1920, 1080, 60000⟩]⟩]
    [⟨"eDP-1", true, some 7, [7, 8]⟩]
    ⟨[⟨7, 1920, 1080, 60⟩, ⟨8, 640, 480, 60⟩]⟩
    [⟨"eDP-1", true, true, [⟨1920, 1080, 60, true⟩, ⟨640, 480, 60, false⟩]⟩]
    "eDP-1"
  obtain ⟨p1, c1⟩ := h1 [⟨⟨640, 480⟩, false⟩, ⟨⟨1920, 1080⟩, true⟩]
    (by simp [swayGetResolutions, sortBy, swayResolutionOrd, cmpOf,
      dedupBy, dedupByLoop, List.mergeSort, List.merge,
      Ordering.then, lt_then, gt_then, eq_then, lt_bne_gt, gt_bne_gt,
      eq_bne_gt])
  obtain ⟨p2, -⟩ := h2 [⟨⟨1920, 1080⟩, true⟩, ⟨⟨640, 480⟩, false⟩]
    (by simp [libxrandrGetResolutions, ScreenResources.mode, sortBy,
      cmpOf, dedup, dedupBy, dedupByLoop, List.mergeSort, List.merge,
      Ordering.then, lt_then, gt_then, eq_then, lt_bne_gt, gt_bne_gt,
      eq_bne_gt])
  obtain ⟨p3, -⟩ := h3 [⟨⟨1920, 1080, 60⟩, true⟩, ⟨⟨640, 480, 60⟩, false⟩]
    (by simp [cliGetModes, sortBy, Mode.cmp, cmpOf, dedup, dedupBy,
      dedupByLoop, List.mergeSort, List.merge,
      Ordering.then, lt_then, gt_then, eq_then, lt_bne_gt, gt_bne_gt,
      eq_bne_gt])
  refine ⟨p1, c1, p2, p3, ?_⟩
  exact h4 [⟨(60000 : ℚ) / 1000, true⟩]
    (by simp [swayGetRates, dedupBy, dedupByLoop])

/-! ## Claim C7: `set_rate` mode matching -/

/-- C7: for the two rate-capable drivers (sway IPC and native libxrandr;
the CLI driver has no `set_rate`, its generation is mode-based), and for
every output set, requested rate `r` and resolved current mode: a mode
`m` is eligible for selection if and only if it has the current mode's
width and height and `|m.rate - r| < 0.01` — the rate comparison is the
0.01-epsilon one, never exact equality — the selected mode (the first
eligible one) satisfies that predicate, and when no eligible mode exists
`set_rate` fails with `SetRate::NoRate(r)`, the structured error carrying
`r`. -/
theorem set_rate_epsilon_matching
    (souts : List SwayOutput) (xouts : List XOutput) (res : ScreenResources)
    (name : String) (rate : Rate)
    (so : SwayOutput) (scur : SwayMode) (xo : XOutput) (xid : Nat)
    (xcur : XMode)
    (hsf : souts.find? (fun o => o.name == name) = some so)
    (hsc : so.current_mode = some scur)
    (hxf : xouts.find? (fun o => o.name == name) = some xo)
    (hxc : xo.current_mode = some xid)
    (hxm : res.mode xid = some xcur) :
    (∀ m, swaySetRate souts name rate = .ok m →
      m ∈ so.modes ∧ m.width = scur.width ∧ m.height = scur.height ∧
        |(m.refresh : ℚ) / 1000 - rate| < 1 / 100) ∧
    ((∃ m, swaySetRate souts name rate = .ok m) ↔
      ∃ m ∈ so.modes, m.width = scur.width ∧ m.height = scur.height ∧
        |(m.refresh : ℚ) / 1000 - rate| < 1 / 100) ∧
    ((¬ ∃ m ∈ so.modes, m.width = scur.width ∧ m.height = scur.height ∧
        |(m.refresh : ℚ) / 1000 - rate| < 1 / 100) →
      swaySetRate souts name rate = .error (.SetRate (.NoRate rate))) ∧
    (∀ m, libxrandrSetRate xouts res name rate = .ok m →
      (m ∈ res.modes ∧ xo.modes.contains m.xid) ∧ m.width = xcur.width ∧
        m.height = xcur.height ∧ |m.rate - rate| < 1 / 100) ∧
    ((∃ m, libxrandrSetRate xouts res name rate = .ok m) ↔
      ∃ m ∈ res.modes.filter (fun m => xo.modes.contains m.xid),
        m.width = xcur.width ∧ m.height = xcur.height ∧
          |m.rate - rate| < 1 / 100) ∧
    ((¬ ∃ m ∈ res.modes.filter (fun m => xo.modes.contains m.xid),
        m.width = xcur.width ∧ m.height = xcur.height ∧
          |m.rate - rate| < 1 / 100) →
      libxrandrSetRate xouts res name rate =
        .error (.SetRate (.NoRate rate))) := by
  have schar : ∀ m : SwayMode,
      ((m.width == scur.width && m.height == scur.height &&
        decide (|(m.refresh : ℚ) / 1000 - rate| < 1 / 100)) = true) ↔
      (m.width = scur.width ∧ m.height = scur.height ∧
        |(m.refresh : ℚ) / 1000 - rate| < 1 / 100) := by
    intro m
    simp [Bool.and_eq_true, beq_iff_eq, decide_eq_true_eq, and_assoc]
  have xchar : ∀ m : XMode,
      ((m.width == xcur.width && m.height == xcur.height &&
        decide (|m.rate - rate| < 1 / 100)) = true) ↔
      (m.width = xcur.width ∧ m.height = xcur.height ∧
        |m.rate - rate| < 1 / 100) := by
    intro m
    simp [Bool.and_eq_true, beq_iff_eq, decide_eq_true_eq, and_assoc]
  have hsred : swaySetRate souts name rate =
      match so.modes.find? (fun m =>
        m.width == scur.width && m.height == scur.height &&
        decide (|(m.refresh : ℚ) / 1000 - rate| < 1 / 100)) with
      | none => .error (.SetRate (.NoRate rate))
      | some target_mode => .ok target_mode := by
    simp only [swaySetRate, hsf, hsc]
  have hxred : libxrandrSetRate xouts res name rate =
      match (res.modes.filter (fun m => xo.modes.contains m.xid)).find?
          (fun m => m.width == xcur.width && m.height == xcur.height &&
            decide (|m.rate - rate| < 1 / 100)) with
      | none => .error (.SetRate (.NoRate rate))
      | some target_mode => .ok target_mode := by
    simp only [libxrandrSetRate, hxf, hxc, hxm]
  have hs := find?_cases so.modes (fun m : SwayMode =>
    m.width == scur.width && m.height == scur.height &&
    decide (|(m.refresh : ℚ) / 1000 - rate| < 1 / 100))
  have hx := find?_cases
    (res.modes.filter (fun m => xo.modes.contains m.xid))
    (fun m : XMode => m.width == xcur.width && m.height == xcur.height &&
      decide (|m.rate - rate| < 1 / 100))
  refine ⟨?_, ?_, ?_, ?_, ?_, ?_⟩
  · intro m hm
    rw [hsred] at hm
    rcases hs with ⟨m', hf, hmem, hp⟩ | ⟨hf, -⟩ <;> rw [hf] at hm
    · cases hm
      exact ⟨hmem, (schar m).mp hp⟩
    · exact Except.noConfusion hm
  · rw [hsred]
    rcases hs with ⟨m', hf, hmem, hp⟩ | ⟨hf, hnone⟩ <;> rw [hf]
    · exact ⟨fun _ => ⟨m', hmem, (schar m').mp hp⟩, fun _ => ⟨m', rfl⟩⟩
    · constructor
      · rintro ⟨m, hm⟩
        exact Except.noConfusion hm
      · rintro ⟨m, hmem, hprops⟩
        exact absurd ((schar m).mpr hprops) (hnone m hmem)
  · intro hno
    rw [hsred]
    rcases hs with ⟨m', hf, hmem, hp⟩ | ⟨hf, -⟩ <;> rw [hf]
    · exact absurd ⟨m', hmem, (schar m').mp hp⟩ hno
  · intro m hm
    rw [hxred] at hm
    rcases hx with ⟨m', hf, hmem, hp⟩ | ⟨hf, -⟩ <;> rw [hf] at hm
    · cases hm
      obtain ⟨hm1, hm2⟩ := List.mem_filter.mp hmem
      exact ⟨⟨hm1, hm2⟩, (xchar m).mp hp⟩
    · exact Except.noConfusion hm
  · rw [hxred]
    rcases hx with ⟨m', hf, hmem, hp⟩ | ⟨hf, hnone⟩ <;> rw [hf]
    · exact ⟨fun _ => ⟨m', hmem, (xchar m').mp hp⟩, fun _ => ⟨m', rfl⟩⟩
    · constructor
      · rintro ⟨m, hm⟩
        exact Except.noConfusion hm
      · rintro ⟨m, hmem, hprops⟩
        exact absurd ((xchar m).mpr hprops) (hnone m hmem)
  · intro hno
    rw [hxred]
    rcases hx with ⟨m', hf, hmem, hp⟩ | ⟨hf, -⟩ <;> rw [hf]
    · exact absurd ⟨m', hmem, (xchar m').mp hp⟩ hno

/-- C7 witness: one-output sets for both drivers; the sway output offers
59.951 Hz (refresh 59951) and 60.02 Hz against requested 59.95, the
libxrandr output offers modes 59.95 and 75.00. -/
theorem set_rate_epsilon_matching_witness :
    (∀ m, swaySetRate [⟨"eDP-1", ⟨0, 0, 1920, 1080⟩,
          some ⟨1920, 1080, 60020⟩,
          [⟨1920, 1080, 60020⟩, ⟨1920, 1080, 59951⟩]⟩] "eDP-1"
          (5995 / 100) = .ok m →
      m ∈ [(⟨1920, 1080, 60020⟩ : SwayMode), ⟨1920, 1080, 59951⟩] ∧
        m.width = (1920 : Int) ∧ m.height = (1080 : Int) ∧
        |(m.refresh : ℚ) / 1000 - 5995 / 100| < 1 / 100) ∧
    ((∃ m, swaySetRate [⟨"eDP-1", ⟨0, 0, 1920, 1080⟩,
          some ⟨1920, 1080, 60020⟩,
          [⟨1920, 1080, 60020⟩, ⟨1920, 1080, 59951⟩]⟩] "eDP-1"
          (5995 / 100) = .ok m) ↔
      ∃ m ∈ [(⟨1920, 1080, 60020⟩ : SwayMode), ⟨1920, 1080, 59951⟩],
        m.width = (1920 : Int) ∧ m.height = (1080 : Int) ∧
        |(m.refresh : ℚ) / 1000 - 5995 / 100| < 1 / 100) ∧
    ((¬ ∃ m ∈ [(⟨1920, 1080, 60020⟩ : SwayMode), ⟨1920, 1080, 59951⟩],
        m.width = (1920 : Int) ∧ m.height = (1080 : Int) ∧
        |(m.refresh : ℚ) / 1000 - 5995 / 100| < 1 / 100) →
      swaySetRate [⟨"eDP-1", ⟨0, 0, 1920, 1080⟩,
          some ⟨1920, 1080, 60020⟩,
          [⟨1920, 1080, 60020⟩, ⟨1920, 1080, 59951⟩]⟩] "eDP-1"
          (5995 / 100) = .error (.SetRate (.NoRate (5995 / 100)))) ∧
    (∀ m, libxrandrSetRate [⟨"eDP-1", true, some 7, [7, 8]⟩]
          ⟨[⟨7, 1920, 1080, 5995 / 100⟩, ⟨8, 1920, 1080, 75⟩]⟩ "eDP-1"
          (5995 / 100) = .ok m →
      (m ∈ [(⟨7, 1920, 1080, 5995 / 100⟩ : XMode), ⟨8, 1920, 1080, 75⟩] ∧
          [7, 8].contains m.xid) ∧ m.width = 1920 ∧ m.height = 1080 ∧
        |m.rate - 5995 / 100| < 1 / 100) ∧
    ((∃ m, libxrandrSetRate [⟨"eDP-1", true, some 7, [7, 8]⟩]
          ⟨[⟨7, 1920, 1080, 5995 / 100⟩, ⟨8, 1920, 1080, 75⟩]⟩ "eDP-1"
          (5995 / 100) = .ok m) ↔
      ∃ m ∈ List.filter (fun m => [7, 8].contains m.xid)
          [(⟨7, 1920, 1080, 5995 / 100⟩ : XMode), ⟨8, 1920, 1080, 75⟩],
        m.width = 1920 ∧ m.height = 1080 ∧
          |m.rate - 5995 / 100| < 1 / 100) ∧
    ((¬ ∃ m ∈ List.filter (fun m => [7, 8].contains m.xid)
          [(⟨7, 1920, 1080, 5995 / 100⟩ : XMode), ⟨8, 1920, 1080, 75⟩],
        m.width = 1920 ∧ m.height = 1080 ∧
          |m.rate - 5995 / 100| < 1 / 100) →
      libxrandrSetRate [⟨"eDP-1", true, some 7, [7, 8]⟩]
          ⟨[⟨7, 1920, 1080, 5995 / 100⟩, ⟨8, 1920, 1080, 75⟩]⟩ "eDP-1"
          (5995 / 100) = .error (.SetRate (.NoRate (5995 / 100)))) :=
  set_rate_epsilon_matching
    [⟨"eDP-1", ⟨0, 0, 1920, 1080⟩, some ⟨1920, 1080, 60020⟩,
      [⟨1920, 1080, 60020⟩, ⟨1920, 1080, 59951⟩]⟩]
    [⟨"eDP-1", true, some 7, [7, 8]⟩]
    ⟨[⟨7, 1920, 1080, 5995 / 100⟩, ⟨8, 1920, 1080, 75⟩]⟩
    "eDP-1" (5995 / 100)
    ⟨"eDP-1", ⟨0, 0, 1920, 1080⟩, some ⟨1920, 1080, 60020⟩,
      [⟨1920, 1080, 60020⟩, ⟨1920, 1080, 59951⟩]⟩
    ⟨1920, 1080, 60020⟩
    ⟨"eDP-1", true, some 7, [7, 8]⟩ 7 ⟨7, 1920, 1080, 5995 / 100⟩
    (by decide) rfl (by decide) rfl rfl

/-! ## Claims C1, C2, C4, C9: the Disable flow and the rate sub-parser -/

/-- C1: with another enabled output present, parsing
`[output, "Disable"]` does return `Done` of an action on that output
immediately and without a confirmation menu — but the action's operation
is `Enable`, not `Disable`: the fall-through of
`confirm_last_display_disable` (whose own comment reads `// Otherwise,
immediately disable.`) calls the `ParseResult::enable` constructor. -/
theorem parse_disable_with_other_enabled_yields_enable :
    Action.parse
      (pureBackend [⟨"HDMI-1", true, true⟩, ⟨"eDP-1", true, true⟩])
      ["HDMI-1", "Disable"] =
    some (.ok (.Done ⟨"HDMI-1", .Enable⟩)) := by
  decide

/-- C2 (counterexample): an output set with exactly one
`enabled && connected` output (`eDP-1`) plus a stale enabled-but-
disconnected one (`HDMI-1`, the X11 quirk the data model allows).  The
guard in `confirm_last_display_disable` tests `o.enabled` only, so the
stale output suppresses the confirmation menu and the parse returns
`Done` directly — the claim says it never returns `Done` here. -/
theorem parse_disable_skips_confirmation_on_stale_enabled :
    Action.parse
      (pureBackend [⟨"eDP-1", true, true⟩, ⟨"HDMI-1", false, true⟩])
      ["eDP-1", "Disable"] =
    some (.ok (.Done ⟨"eDP-1", .Enable⟩)) := by
  decide

/-- C2 (amended): for every output set in which no output **other than
the chosen one is enabled** (regardless of the others' connectivity),
parsing `[output, "Disable"]` never returns `Done`; it returns `Next`
with the confirmation menu, and a subsequent invocation with the
additional token `"Yes"` returns `Done` of an `Action` whose operation is
`Disable` on that output. -/
theorem last_enabled_disable_requires_confirmation
    (b : Backend) (outputs : List OutputEntry) (name : String)
    (o : OutputEntry)
    (houts : b.getOutputs = .ok outputs)
    (hfind : outputs.find? (fun o' => o'.name == name) = some o)
    (hothers : ∀ o' ∈ outputs, o'.name ≠ name → o'.enabled = false) :
    Action.parse b [name, "Disable"] =
      some (.ok ParseResult.confirm_disable_list) ∧
    Action.parse b [name, "Disable", "Yes"] =
      some (.ok (.Done ⟨name, .Disable⟩)) := by
  have hname : o.name = name := by
    have h := List.find?_some hfind
    simpa using h
  have hany : (outputs.any fun o' => o'.name != o.name && o'.enabled)
      = false := by
    rw [List.any_eq_false]
    intro o' ho'
    by_cases h : o'.name = name
    · simp [h, hname]
    · simp [hname, h, hothers o' ho' h]
  constructor
  · simp only [Action.parse, houts, hfind, confirm_last_display_disable,
      hany]
    rfl
  · simp only [Action.parse, houts, hfind, confirm_last_display_disable]
    simp [ParseResult.disable, hname]

/-- C2 witness: the amended behaviour on a one-output set. -/
theorem last_enabled_disable_requires_confirmation_witness :
    Action.parse (pureBackend [⟨"eDP-1", true, true⟩])
        ["eDP-1", "Disable"] =
      some (.ok ParseResult.confirm_disable_list) ∧
    Action.parse (pureBackend [⟨"eDP-1", true, true⟩])
        ["eDP-1", "Disable", "Yes"] =
      some (.ok (.Done ⟨"eDP-1", .Disable⟩)) :=
  last_enabled_disable_requires_confirmation
    (pureBackend [⟨"eDP-1", true, true⟩]) [⟨"eDP-1", true, true⟩]
    "eDP-1" ⟨"eDP-1", true, true⟩ rfl (by decide) (by decide)

/-- C4: declining the last-display confirmation (any token other than
`"Yes"`, here the menu's own `"No"` entry) makes the parse return
`Err(AppError::Cancel)` — an error on exactly the channel every parse and
backend failure uses (`src/main.rs` prints any `Err` through the error
list and exits non-zero).  The code's own comment concedes the point:
`// TODO: this is not really an error`. -/
theorem decline_disable_confirmation_is_error_cancel :
    Action.parse (pureBackend [⟨"eDP-1", true, true⟩])
      ["eDP-1", "Disable", "No"] = some (.error .Cancel) := by
  decide

/-- C9: the rate sub-parser is not total: on the two-byte token `"60"`
the slice `&rate_s[..rate_s.len() - 3]` underflows and panics (embedded
as `none`) instead of returning the structured invalid-rate error. -/
theorem rate_token_shorter_than_three_bytes_panics :
    Action.parse (pureBackend [⟨"eDP-1", true, true⟩])
      ["eDP-1", "Change rate", "60"] = none := by
  decide

/-! ## Claim C8: the `Relation` display/parse round trip -/

/-- C8 (counterexample): `Relation`'s `Display` implementation ends with
`write!(f, "{pos_s} ")`, producing a trailing space, and `from_str` only
matches the unpadded labels, so the literal round trip fails on every
variant; here on `LeftOf`. -/
theorem relation_display_fromStr_no_roundtrip :
    Relation.fromStr (Relation.display .LeftOf) ≠ .ok Relation.LeftOf := by
  decide

/-- C8 (amended): the display text carries a trailing space, which the
caller strips before re-parsing (`src/main.rs` line 30 trims every chosen
token); `from_str` of the trimmed display text yields the original variant
for all five variants. -/
theorem relation_roundtrip_after_trim (r : Relation) :
    Relation.fromStr (cleanToken (Relation.display r)) = .ok r := by
  cases r <;> decide

end RofiRandr
